import Mathlib

/-!
Offscreen snapshots, the mock layer of the flow tests, Vulkan capabilities,
runtime stages and the rasterisation of pictures.

A shallow embedding of

* `impeller/entity/contents/contents.cc` (`Contents::RenderToSnapshot`,
  `Contents::ShouldRender`),
* `flow/testing/mock_layer.cc` (`MockLayer::IsReplacing`, `Diff`, `Preroll`,
  `Paint`),
* `impeller/renderer/backend/vulkan/capabilities_vk.cc` (the constructor of
  `CapabilitiesVK`, `GetEnabledLayers`, `GetEnabledInstanceExtensions`,
  `GetEnabledDeviceExtensions`, `GetEnabledDeviceFeatures`, `HasLayer`,
  `HasExtension`, `SetPhysicalDevice`),
* `impeller/runtime_stage/runtime_stage.cc` (the constructor of
  `RuntimeStage`), and
* `lib/ui/painting/picture.cc` (`Picture::RasterizeToImage`),

followed by the properties proved about them.

Scalars (`impeller::Scalar`, `SkScalar`) are C++ `float`s; here they are exact
rationals, so every statement below is about exact arithmetic and says nothing
about rounding, infinities or NaN.
-/

namespace impeller

/-- The type `impeller::Scalar`, taken as an exact rational number. -/
abbrev Scalar := ℚ

/-- The type `impeller::Point` (geometry/point.h): the two coordinates. -/
structure Point where
  x : Scalar
  y : Scalar
  deriving DecidableEq

/-- The type `impeller::Size` (geometry/size.h), the scalar instance of `TSize`. -/
structure Size where
  width : Scalar
  height : Scalar
  deriving DecidableEq

/-- The type `impeller::ISize`, the `int64_t` instance of `TSize`; the components are
unbounded integers here. -/
structure ISize where
  width : Int
  height : Int
  deriving DecidableEq

/-- The type `impeller::Rect` (geometry/rect.h): an origin and a size. -/
structure Rect where
  origin : Point
  size : Size
  deriving DecidableEq

/-- The type `impeller::Vector3` (geometry/vector.h). -/
structure Vector3 where
  x : Scalar
  y : Scalar
  z : Scalar
  deriving DecidableEq

/-- Unary minus of a point, `-coverage->origin` in `RenderToSnapshot`. -/
def Point.neg (p : Point) : Point :=
  { x := -p.x, y := -p.y }

/-- The conversion `Vector3(const Point&)`, which `RenderToSnapshot` uses both
explicitly (`Vector3(-coverage->origin)`) and implicitly
(`MakeTranslation(coverage->origin)`): the third coordinate is zero. -/
def Vector3.ofPoint (p : Point) : Vector3 :=
  { x := p.x, y := p.y, z := 0 }

/-- Modelled from the spec: `ISize::Ceil` (geometry/size.h is not among the
files embedded here).  The spec sizes the offscreen target "to the ceiling of the
coverage's pixel dimensions": each dimension is rounded up to an integer. -/
def ISize.Ceil (s : Size) : ISize :=
  { width := Int.ceil s.width, height := Int.ceil s.height }

/-- Modelled from the spec: `Rect::MakeSize` (geometry/rect.h is not among the
files embedded here): the rectangle of the given size placed at the origin
`(0, 0)`, here applied to the integer target size of `ShouldRender`. -/
def Rect.MakeSize (s : ISize) : Rect :=
  { origin := { x := 0, y := 0 }, size := { width := s.width, height := s.height } }

/-- Modelled from the spec: `impeller::Matrix` (geometry/matrix.h is not among
the files embedded here).  A placement transform is a 4x4 matrix of scalars
stored column by column: `m0 .. m3` is the first column and `m12 .. m15` the
last one, which carries the translation. -/
structure Matrix where
  m0 : Scalar
  m1 : Scalar
  m2 : Scalar
  m3 : Scalar
  m4 : Scalar
  m5 : Scalar
  m6 : Scalar
  m7 : Scalar
  m8 : Scalar
  m9 : Scalar
  m10 : Scalar
  m11 : Scalar
  m12 : Scalar
  m13 : Scalar
  m14 : Scalar
  m15 : Scalar
  deriving DecidableEq

/-- The default-constructed `Matrix`: the identity. -/
def Matrix.identity : Matrix :=
  { m0 := 1, m1 := 0, m2 := 0, m3 := 0,
    m4 := 0, m5 := 1, m6 := 0, m7 := 0,
    m8 := 0, m9 := 0, m10 := 1, m11 := 0,
    m12 := 0, m13 := 0, m14 := 0, m15 := 1 }

/-- Modelled from the spec: `Matrix::MakeTranslation`, the "pure translation
by" a vector: the identity with the vector in the last column. -/
def Matrix.MakeTranslation (t : Vector3) : Matrix :=
  { m0 := 1, m1 := 0, m2 := 0, m3 := 0,
    m4 := 0, m5 := 1, m6 := 0, m7 := 0,
    m8 := 0, m9 := 0, m10 := 1, m11 := 0,
    m12 := t.x, m13 := t.y, m14 := t.z, m15 := 1 }

/-- Modelled from the spec: `Matrix::operator*`, the composition of two
transforms, `a * o` applying `o` first: the product of the two 4x4 matrices in
column-major storage. -/
def Matrix.Multiply (a o : Matrix) : Matrix :=
  { m0 := a.m0 * o.m0 + a.m4 * o.m1 + a.m8 * o.m2 + a.m12 * o.m3,
    m1 := a.m1 * o.m0 + a.m5 * o.m1 + a.m9 * o.m2 + a.m13 * o.m3,
    m2 := a.m2 * o.m0 + a.m6 * o.m1 + a.m10 * o.m2 + a.m14 * o.m3,
    m3 := a.m3 * o.m0 + a.m7 * o.m1 + a.m11 * o.m2 + a.m15 * o.m3,
    m4 := a.m0 * o.m4 + a.m4 * o.m5 + a.m8 * o.m6 + a.m12 * o.m7,
    m5 := a.m1 * o.m4 + a.m5 * o.m5 + a.m9 * o.m6 + a.m13 * o.m7,
    m6 := a.m2 * o.m4 + a.m6 * o.m5 + a.m10 * o.m6 + a.m14 * o.m7,
    m7 := a.m3 * o.m4 + a.m7 * o.m5 + a.m11 * o.m6 + a.m15 * o.m7,
    m8 := a.m0 * o.m8 + a.m4 * o.m9 + a.m8 * o.m10 + a.m12 * o.m11,
    m9 := a.m1 * o.m8 + a.m5 * o.m9 + a.m9 * o.m10 + a.m13 * o.m11,
    m10 := a.m2 * o.m8 + a.m6 * o.m9 + a.m10 * o.m10 + a.m14 * o.m11,
    m11 := a.m3 * o.m8 + a.m7 * o.m9 + a.m11 * o.m10 + a.m15 * o.m11,
    m12 := a.m0 * o.m12 + a.m4 * o.m13 + a.m8 * o.m14 + a.m12 * o.m15,
    m13 := a.m1 * o.m12 + a.m5 * o.m13 + a.m9 * o.m14 + a.m13 * o.m15,
    m14 := a.m2 * o.m12 + a.m6 * o.m13 + a.m10 * o.m14 + a.m14 * o.m15,
    m15 := a.m3 * o.m12 + a.m7 * o.m13 + a.m11 * o.m14 + a.m15 * o.m15 }

instance : Mul Matrix := ⟨Matrix.Multiply⟩

/-- Modelled from the spec: the image of a 2D point under a transform (the
spec's "the coverage origin maps to the target's local origin"): the point is
taken as the homogeneous vector `(x, y, 0, 1)`, multiplied by the matrix and
divided by the resulting `w` unless that is zero. -/
def Matrix.TransformPoint (a : Matrix) (v : Point) : Point :=
  let w := v.x * a.m3 + v.y * a.m7 + a.m15
  let rx := v.x * a.m0 + v.y * a.m4 + a.m12
  let ry := v.x * a.m1 + v.y * a.m5 + a.m13
  if w = 0 then { x := rx, y := ry } else { x := rx / w, y := ry / w }

/-- The enumeration `Entity::BlendMode`.  `RenderToSnapshot` names only `kSourceOver`; the
other enumerators are kept apart by their number. -/
inductive BlendMode where
  | kSourceOver
  | kOther (tag : Nat)
  deriving DecidableEq

/-- The part of `impeller::Entity` that `RenderToSnapshot` reads and writes:
the transformation and the blend mode. -/
structure Entity where
  transformation : Matrix
  blend_mode : BlendMode
  deriving DecidableEq

/-- The default-constructed entity, `Entity sub_entity;`. -/
def Entity.default : Entity :=
  { transformation := Matrix.identity, blend_mode := BlendMode.kSourceOver }

/-- The getter `Entity::GetTransformation`. -/
def Entity.GetTransformation (e : Entity) : Matrix :=
  e.transformation

/-- The setter `Entity::SetTransformation`. -/
def Entity.SetTransformation (e : Entity) (t : Matrix) : Entity :=
  { e with transformation := t }

/-- The setter `Entity::SetBlendMode`. -/
def Entity.SetBlendMode (e : Entity) (b : BlendMode) : Entity :=
  { e with blend_mode := b }

/-- The result type of `RenderToSnapshot`: a (non-null) texture and the
transform that places it. -/
structure Snapshot (Texture : Type) where
  texture : Texture
  transform : Matrix

/-- The abstract class `Contents`: its two virtual methods, which every
concrete content supplies.  `Renderer` stands for `ContentContext` and `Pass`
for `RenderPass`. -/
structure Contents (Renderer Pass : Type) where
  GetCoverage : Entity → Option Rect
  Render : Renderer → Entity → Pass → Bool

/-- The callback type `ContentContext::SubpassCallback`. -/
abbrev SubpassCallback (Renderer Pass : Type) :=
  Renderer → Pass → Bool

/-- The signature of `ContentContext::MakeSubpass`, whose body is not among the
files embedded here and is a parameter of the embedding: from the renderer, a
texture size and a callback it yields a texture, or a null pointer (`none`). -/
abbrev MakeSubpassFn (Renderer Pass Texture : Type) :=
  Renderer → ISize → SubpassCallback Renderer Pass → Option Texture

/-- One call of `MakeSubpass`, with its two arguments. -/
structure SubpassRequest (Renderer Pass : Type) where
  texture_size : ISize
  subpass_callback : SubpassCallback Renderer Pass

/-- What a run of `RenderToSnapshot` leaves behind: the returned optional
snapshot and the calls of `MakeSubpass` it made, in order. -/
structure SnapshotRun (Renderer Pass Texture : Type) where
  result : Option (Snapshot Texture)
  subpasses : List (SubpassRequest Renderer Pass)

/-- The entity the subpass callback of `RenderToSnapshot` builds and renders
(contents.cc, lines 44 to 48). -/
def SubEntity (entity : Entity) (coverage : Rect) : Entity :=
  let sub_entity := Entity.default
  let sub_entity := sub_entity.SetBlendMode BlendMode.kSourceOver
  sub_entity.SetTransformation
    (Matrix.MakeTranslation (Vector3.ofPoint coverage.origin.neg) * entity.GetTransformation)

/-- The method `Contents::RenderToSnapshot` (contents.cc, lines 32 to 58). -/
def Contents.RenderToSnapshot {Renderer Pass Texture : Type}
    (MakeSubpass : MakeSubpassFn Renderer Pass Texture)
    (self : Contents Renderer Pass) (renderer : Renderer) (entity : Entity) :
    SnapshotRun Renderer Pass Texture :=
  match self.GetCoverage entity with
  | none => { result := none, subpasses := [] }
  | some coverage =>
    let callback : SubpassCallback Renderer Pass :=
      fun renderer pass => self.Render renderer (SubEntity entity coverage) pass
    let request : SubpassRequest Renderer Pass :=
      { texture_size := ISize.Ceil coverage.size, subpass_callback := callback }
    match MakeSubpass renderer request.texture_size request.subpass_callback with
    | none => { result := none, subpasses := [request] }
    | some texture =>
      { result := some { texture := texture,
                         transform := Matrix.MakeTranslation (Vector3.ofPoint coverage.origin) },
        subpasses := [request] }

/-- The method `Contents::ShouldRender` (contents.cc, lines 60 to 65).  The predicate
`Rect::IntersectsWithRect` lives in geometry/rect.h, which is not among the
files embedded here, and is a parameter. -/
def Contents.ShouldRender {Renderer Pass : Type}
    (IntersectsWithRect : Rect → Rect → Bool)
    (self : Contents Renderer Pass) (entity : Entity) (target_size : ISize) : Bool :=
  match self.GetCoverage entity with
  | none => false
  | some coverage => IntersectsWithRect (Rect.MakeSize target_size) coverage

end impeller

namespace flutter

/-- The scalar type `SkScalar` of Skia, taken as an exact rational number. -/
abbrev SkScalar := ℚ

/-- The constant `SK_Scalar1`. -/
def SK_Scalar1 : SkScalar := 1

/-- The rectangle type `SkRect` of Skia: its four edges. -/
structure SkRect where
  fLeft : SkScalar
  fTop : SkScalar
  fRight : SkScalar
  fBottom : SkScalar
  deriving DecidableEq

/-- What the mock layer uses of `SkPath`, a type of the Skia library: the
bounding rectangle `getBounds()`.  The comparison `==` of two paths is
equality of the values. -/
class SkPathApi (SkPath : Type) where
  getBounds : SkPath → SkRect

/-- What the mock layer uses of `SkPaint`, a type of the Skia library: the
default-constructed paint (`SkPaint p;`) and `setAlphaf`, with the getter
`getAlphaf` that reads the alpha back: after `setAlphaf(a)` the alpha of the
paint is `a`.  The alpha is an exact rational like every scalar here, and the
pinning that Skia applies to an alpha outside the range from 0 to 1 of an
opacity is not modelled.  The comparison `==` of two paints is equality of the
values. -/
class SkPaintApi (SkPaint : Type) where
  defaultPaint : SkPaint
  setAlphaf : SkPaint → SkScalar → SkPaint
  getAlphaf : SkPaint → SkScalar
  getAlphaf_setAlphaf : ∀ (paint : SkPaint) (a : SkScalar), getAlphaf (setAlphaf paint a) = a

/-- The class `MockLayer` (mock_layer.h) with the two members of its base
class `Layer` that mock_layer.cc touches: the identity `unique_id` and the
paint bounds.  `SkMatrix` and `MutatorsStack` are only stored. -/
structure MockLayer (SkPath SkPaint SkMatrix MutatorsStack : Type) where
  unique_id_ : Nat
  paint_bounds_ : SkRect
  parent_mutators_ : MutatorsStack
  parent_matrix_ : SkMatrix
  parent_cull_rect_ : SkRect
  parent_has_platform_view_ : Bool
  parent_has_texture_layer_ : Bool
  fake_paint_path_ : SkPath
  fake_paint_ : SkPaint
  fake_has_platform_view_ : Bool
  fake_reads_surface_ : Bool
  fake_opacity_compatible_ : Bool
  fake_has_texture_layer_ : Bool

/-- A layer as `IsReplacing` sees it through `const Layer*`: either a mock
layer or a layer of some other kind, of which only the base-class members are
kept. -/
inductive Layer (SkPath SkPaint SkMatrix MutatorsStack : Type) where
  | mock (layer : MockLayer SkPath SkPaint SkMatrix MutatorsStack)
  | other (unique_id : Nat) (paint_bounds : SkRect)

/-- The virtual `Layer::as_mock_layer`: `this` for a mock layer, a null
pointer (`none`) for every other kind. -/
def Layer.as_mock_layer {SkPath SkPaint SkMatrix MutatorsStack : Type} :
    Layer SkPath SkPaint SkMatrix MutatorsStack →
      Option (MockLayer SkPath SkPaint SkMatrix MutatorsStack)
  | Layer.mock layer => some layer
  | Layer.other _ _ => none

/-- The region type `PaintRegion`: the rectangles whose union it is. -/
abbrev PaintRegion := List SkRect

/-- Modelled from the spec: `DiffContext` (flow/diff_context.cc is not among the
files embedded here).  The spec gives it "a cursor over the
currently-accumulating subtree region, a stack of saved cursors" and a mapping
from layer identity to painted region.  Here `rects` holds the rectangles
accumulated in this frame, `cursor` is the position in `rects` where the
in-progress subtree region starts, `saved_cursors` is the stack,
`to_active_space` is the active ancestor clip and transform (`none` when the
clip leaves nothing of the rectangle), and the two maps are the regions
recorded in this frame and in the previous one. -/
structure DiffContext where
  rects : List SkRect
  cursor : Nat
  saved_cursors : List Nat
  to_active_space : SkRect → Option SkRect
  this_frame_paint_region : Nat → Option PaintRegion
  last_frame_paint_region : Nat → Option PaintRegion

/-- Modelled from the spec: the constructor of `DiffContext::AutoSubtreeRestore`
(`BeginSubtree`): "entering a subtree diff snapshots the current region cursor
onto a stack"; the region of the subtree then starts empty, at the end of the
rectangles accumulated so far. -/
def DiffContext.BeginSubtree (c : DiffContext) : DiffContext :=
  { c with saved_cursors := c.cursor :: c.saved_cursors, cursor := c.rects.length }

/-- Modelled from the spec: the destructor of `DiffContext::AutoSubtreeRestore`
(`EndSubtree`): "the cursor is popped and restored before control returns to
the caller". -/
def DiffContext.EndSubtree (c : DiffContext) : DiffContext :=
  match c.saved_cursors with
  | [] => c
  | saved :: rest => { c with cursor := saved, saved_cursors := rest }

/-- Modelled from the spec: `DiffContext::AddLayerBounds`, which "unions a
rect, transformed into the currently active coordinate space (after applying
any active ancestor clip/transform recorded on the context), into the
in-progress subtree region". -/
def DiffContext.AddLayerBounds (c : DiffContext) (rect : SkRect) : DiffContext :=
  match c.to_active_space rect with
  | none => c
  | some paint_rect => { c with rects := c.rects ++ [paint_rect] }

/-- Modelled from the spec: `DiffContext::CurrentSubtreeRegion`, the
in-progress subtree region: what was accumulated from the cursor on. -/
def DiffContext.CurrentSubtreeRegion (c : DiffContext) : PaintRegion :=
  c.rects.drop c.cursor

/-- Modelled from the spec: `DiffContext::SetLayerPaintRegion`, which "records
the region this layer painted in the current frame, keyed by its stable
identity". -/
def DiffContext.SetLayerPaintRegion (c : DiffContext) (layer_id : Nat)
    (region : PaintRegion) : DiffContext :=
  { c with this_frame_paint_region :=
      fun id => if id = layer_id then some region else c.this_frame_paint_region id }

/-- The fields of `PrerollContext` (flow/layers/layer.h) that
`MockLayer::Preroll` reads or writes. -/
structure PrerollContext (MutatorsStack : Type) where
  mutators_stack : MutatorsStack
  cull_rect : SkRect
  surface_needs_readback : Bool
  has_platform_view : Bool
  has_texture_layer : Bool
  subtree_can_inherit_opacity : Bool

/-- A call on an `SkCanvas` made by `MockLayer::Paint`. -/
inductive CanvasCall (SkPath SkPaint : Type) where
  | saveLayer (bounds : SkRect) (paint : SkPaint)
  | drawPath (path : SkPath) (paint : SkPaint)
  | restore
  deriving DecidableEq

/-- The fields of `PaintContext` that `MockLayer::Paint` uses.  The canvas
`leaf_nodes_canvas` is an object of the Skia library and is represented by
the calls made on it so far, oldest first. -/
structure PaintContext (SkPath SkPaint : Type) where
  leaf_nodes_canvas : List (CanvasCall SkPath SkPaint)
  inherited_opacity : SkScalar

/-- The save depth of a canvas after a sequence of calls, starting from depth
`d`: `saveLayer` opens a level, `restore` closes one. -/
def saveDepthAfter {SkPath SkPaint : Type} (d : Nat) :
    List (CanvasCall SkPath SkPaint) → Nat
  | [] => d
  | CanvasCall.saveLayer _ _ :: rest => saveDepthAfter (d + 1) rest
  | CanvasCall.drawPath _ _ :: rest => saveDepthAfter d rest
  | CanvasCall.restore :: rest => saveDepthAfter (d - 1) rest

/-- The number of `drawPath` calls in a sequence of canvas calls. -/
def drawPathCount {SkPath SkPaint : Type} : List (CanvasCall SkPath SkPaint) → Nat
  | [] => 0
  | CanvasCall.drawPath _ _ :: rest => drawPathCount rest + 1
  | _ :: rest => drawPathCount rest

section MockLayerMethods

variable {SkPath SkPaint SkMatrix MutatorsStack : Type}

/-- The method `MockLayer::IsReplacing` (mock_layer.cc, lines 26 to 33). -/
def MockLayer.IsReplacing [DecidableEq SkPath] [DecidableEq SkPaint]
    (self : MockLayer SkPath SkPaint SkMatrix MutatorsStack) (_context : DiffContext)
    (layer : Layer SkPath SkPaint SkMatrix MutatorsStack) : Bool :=
  match layer.as_mock_layer with
  | none => false
  | some mock_layer =>
    decide (mock_layer.fake_paint_ = self.fake_paint_) &&
      decide (mock_layer.fake_paint_path_ = self.fake_paint_path_)

/-- The method `MockLayer::Diff` (mock_layer.cc, lines 35 to 39).  The scoped object
`subtree` begins the subtree on construction and ends it when the function
returns. -/
def MockLayer.Diff [SkPathApi SkPath]
    (self : MockLayer SkPath SkPaint SkMatrix MutatorsStack) (context : DiffContext)
    (_old_layer : Option (Layer SkPath SkPaint SkMatrix MutatorsStack)) : DiffContext :=
  let context := context.BeginSubtree
  let context := context.AddLayerBounds (SkPathApi.getBounds self.fake_paint_path_)
  let context := context.SetLayerPaintRegion self.unique_id_ context.CurrentSubtreeRegion
  context.EndSubtree

/-- The setter `Layer::set_paint_bounds`. -/
def MockLayer.set_paint_bounds (self : MockLayer SkPath SkPaint SkMatrix MutatorsStack)
    (paint_bounds : SkRect) : MockLayer SkPath SkPaint SkMatrix MutatorsStack :=
  { self with paint_bounds_ := paint_bounds }

/-- The method `MockLayer::Preroll` (mock_layer.cc, lines 41 to 57): the layer and the
context as the call leaves them. -/
def MockLayer.Preroll [SkPathApi SkPath]
    (self : MockLayer SkPath SkPaint SkMatrix MutatorsStack)
    (context : PrerollContext MutatorsStack) (matrix : SkMatrix) :
    MockLayer SkPath SkPaint SkMatrix MutatorsStack × PrerollContext MutatorsStack :=
  let self := { self with parent_mutators_ := context.mutators_stack }
  let self := { self with parent_matrix_ := matrix }
  let self := { self with parent_cull_rect_ := context.cull_rect }
  let self := { self with parent_has_platform_view_ := context.has_platform_view }
  let self := { self with parent_has_texture_layer_ := context.has_texture_layer }
  let context := { context with has_platform_view := self.fake_has_platform_view_ }
  let context := { context with has_texture_layer := self.fake_has_texture_layer_ }
  let self := self.set_paint_bounds (SkPathApi.getBounds self.fake_paint_path_)
  let context :=
    if self.fake_reads_surface_ then { context with surface_needs_readback := true }
    else context
  let context :=
    if self.fake_opacity_compatible_ then { context with subtree_can_inherit_opacity := true }
    else context
  (self, context)

/-- The method `MockLayer::Paint` (mock_layer.cc, lines 59 to 71).  `needs_painting` is
`Layer::needs_painting` (flow/layers/layer.h, not among the files embedded here)
and `dcheck_is_on` tells whether `FML_DCHECK` is compiled in: it is in debug
builds, where a failed check aborts the program (`none`), and it is not in
release builds, where the condition is not even evaluated. -/
def MockLayer.Paint [SkPathApi SkPath] [SkPaintApi SkPaint]
    (needs_painting : MockLayer SkPath SkPaint SkMatrix MutatorsStack →
      PaintContext SkPath SkPaint → Bool)
    (dcheck_is_on : Bool)
    (self : MockLayer SkPath SkPaint SkMatrix MutatorsStack)
    (context : PaintContext SkPath SkPaint) : Option (PaintContext SkPath SkPaint) :=
  if dcheck_is_on && !needs_painting self context then none
  else
    let canvas := context.leaf_nodes_canvas
    let canvas :=
      if context.inherited_opacity < SK_Scalar1 then
        let p : SkPaint := SkPaintApi.defaultPaint
        let p := SkPaintApi.setAlphaf p context.inherited_opacity
        canvas ++ [CanvasCall.saveLayer (SkPathApi.getBounds self.fake_paint_path_) p]
      else canvas
    let canvas := canvas ++ [CanvasCall.drawPath self.fake_paint_path_ self.fake_paint_]
    let canvas :=
      if context.inherited_opacity < SK_Scalar1 then canvas ++ [CanvasCall.restore]
      else canvas
    some { context with leaf_nodes_canvas := canvas }

end MockLayerMethods

end flutter

namespace impeller

/-- A sample content whose coverage is always the rectangle with origin
`(10, 20)` and size `30` by `40`, and whose `Render` succeeds. -/
def sampleContents : Contents Unit Unit :=
  { GetCoverage := fun _ =>
      some { origin := { x := 10, y := 20 }, size := { width := 30, height := 40 } },
    Render := fun _ _ _ => true }

/-- A sample `MakeSubpass`: it runs the callback and hands out a texture,
numbered by its area, when the callback succeeds. -/
def sampleMakeSubpass : MakeSubpassFn Unit Unit Int :=
  fun renderer size callback =>
    if callback renderer () then some (size.width * size.height) else none

/-- A sample entity: translated by `(3, 4)`, with a blend mode other than
source-over. -/
def sampleEntity : Entity :=
  { transformation := Matrix.MakeTranslation { x := 3, y := 4, z := 0 },
    blend_mode := BlendMode.kOther 7 }

end impeller

namespace flutter

/-- A sample path type: a path that consists of one rectangle, which is its
own bounding rectangle. -/
structure SamplePath where
  rect : SkRect
  deriving DecidableEq

instance : SkPathApi SamplePath :=
  { getBounds := fun path => path.rect }

/-- A sample paint type: a colour and an alpha. -/
structure SamplePaint where
  color : Nat
  alpha : SkScalar
  deriving DecidableEq

instance : SkPaintApi SamplePaint :=
  { defaultPaint := { color := 0, alpha := 1 },
    setAlphaf := fun paint a => { paint with alpha := a },
    getAlphaf := fun paint => paint.alpha,
    getAlphaf_setAlphaf := fun _ _ => rfl }

/-- A sample mock layer that declares a platform view: path the rectangle
`(0, 0, 5, 5)`, red paint. -/
def sampleLayer : MockLayer SamplePath SamplePaint Unit Unit :=
  { unique_id_ := 1,
    paint_bounds_ := { fLeft := 0, fTop := 0, fRight := 0, fBottom := 0 },
    parent_mutators_ := (),
    parent_matrix_ := (),
    parent_cull_rect_ := { fLeft := 0, fTop := 0, fRight := 0, fBottom := 0 },
    parent_has_platform_view_ := false,
    parent_has_texture_layer_ := false,
    fake_paint_path_ := { rect := { fLeft := 0, fTop := 0, fRight := 5, fBottom := 5 } },
    fake_paint_ := { color := 16711680, alpha := 1 },
    fake_has_platform_view_ := true,
    fake_reads_surface_ := false,
    fake_opacity_compatible_ := false,
    fake_has_texture_layer_ := false }

/-- A sample preroll context in which no platform view and no texture layer
has been seen. -/
def samplePrerollContext : PrerollContext Unit :=
  { mutators_stack := (),
    cull_rect := { fLeft := 0, fTop := 0, fRight := 100, fBottom := 100 },
    surface_needs_readback := false,
    has_platform_view := false,
    has_texture_layer := false,
    subtree_can_inherit_opacity := false }

/-- A sample diff context at the start of a frame: nothing accumulated, no
saved cursor, the identity as active space and nothing recorded. -/
def sampleDiffContext : DiffContext :=
  { rects := [],
    cursor := 0,
    saved_cursors := [],
    to_active_space := fun rect => some rect,
    this_frame_paint_region := fun _ => none,
    last_frame_paint_region := fun _ => none }

/-- A sample `needs_painting`: false for a layer whose paint bounds are empty,
as they are before `Preroll` has run, and true otherwise. -/
def sampleNeedsPainting :
    MockLayer SamplePath SamplePaint Unit Unit → PaintContext SamplePath SamplePaint → Bool :=
  fun layer _ =>
    decide (layer.paint_bounds_.fLeft < layer.paint_bounds_.fRight) &&
      decide (layer.paint_bounds_.fTop < layer.paint_bounds_.fBottom)

/-- A sample paint context: an untouched canvas and half opacity. -/
def samplePaintContext : PaintContext SamplePath SamplePaint :=
  { leaf_nodes_canvas := [], inherited_opacity := 1 / 2 }

/-- The sample layer after `Preroll` in the sample preroll context: its paint
bounds are the bounds `(0, 0, 5, 5)` of its path, so that it needs
painting. -/
def samplePrerolledLayer : MockLayer SamplePath SamplePaint Unit Unit :=
  (sampleLayer.Preroll samplePrerollContext ()).1

end flutter

namespace vk

/-- The result code `vk::Result` of a Vulkan call: success, or any other code. -/
inductive Result where
  | eSuccess
  | eOther (code : Int)
  deriving DecidableEq

/-- The pair `vk::ResultValue<T>` that an enumeration returns: the result code
and the value. -/
structure ResultValue (α : Type) where
  result : Result
  value : α

/-- The formats `vk::Format` that capabilities_vk.cc names; every other format
is kept apart by its number. -/
inductive Format where
  | eB8G8R8A8Unorm
  | eD32SfloatS8Uint
  | eD24UnormS8Uint
  | eS8Uint
  | eOther (tag : Nat)
  deriving DecidableEq

/-- The bit `vk::FormatFeatureFlagBits::eColorAttachment`. -/
def FormatFeatureFlagBits.eColorAttachment : Nat := 0x80

/-- The bit `vk::FormatFeatureFlagBits::eDepthStencilAttachment`. -/
def FormatFeatureFlagBits.eDepthStencilAttachment : Nat := 0x200

/-- The bits `vk::SampleCountFlagBits::e1` and `e4`. -/
def SampleCountFlagBits.e1 : Nat := 0x1

/-- The bit `vk::SampleCountFlagBits::e4`. -/
def SampleCountFlagBits.e4 : Nat := 0x4

/-- The bit `vk::QueueFlagBits::eGraphics`. -/
def QueueFlagBits.eGraphics : Nat := 0x1

/-- The bit `vk::QueueFlagBits::eCompute`. -/
def QueueFlagBits.eCompute : Nat := 0x2

/-- The bit `vk::QueueFlagBits::eTransfer`. -/
def QueueFlagBits.eTransfer : Nat := 0x4

/-- The bit `vk::SubgroupFeatureFlagBits::eArithmetic`. -/
def SubgroupFeatureFlagBits.eArithmetic : Nat := 0x4

/-- The part of `vk::QueueFamilyProperties` that `HasRequiredQueues` reads. -/
structure QueueFamilyProperties where
  queueFlags : Nat
  queueCount : Nat
  deriving DecidableEq

/-- The part of `vk::PhysicalDeviceProperties` that capabilities_vk.cc reads:
`limits.framebufferColorSampleCounts`. -/
structure PhysicalDeviceProperties where
  framebufferColorSampleCounts : Nat
  deriving DecidableEq

/-- A physical device `vk::PhysicalDevice`, given by the answers of the driver
to the queries capabilities_vk.cc makes: the device extensions, the optimal
tiling features of each format, the properties, the queue families, the
supported subgroup operations and the two features read by
`GetEnabledDeviceFeatures`. -/
structure PhysicalDevice where
  enumerateDeviceExtensionProperties : ResultValue (List String)
  optimalTilingFeatures : Format → Nat
  getProperties : PhysicalDeviceProperties
  getQueueFamilyProperties : List QueueFamilyProperties
  subgroupSupportedOperations : Nat
  fillModeNonSolid : Bool
  samplerYcbcrConversion : Bool

/-- The Vulkan loader as the constructor of `CapabilitiesVK` sees it:
`vk::enumerateInstanceExtensionProperties`, for the instance (`none`) or for a
named layer, and `vk::enumerateInstanceLayerProperties`, of which only the
layer names are used. -/
structure Loader where
  enumerateInstanceExtensionProperties : Option String → ResultValue (List String)
  enumerateInstanceLayerProperties : ResultValue (List String)

end vk

namespace impeller

/-- The operation `insert` of a `std::set`, the set being kept as a list
without repetition. -/
def setInsert {α : Type} [DecidableEq α] (s : List α) (x : α) : List α :=
  if x ∈ s then s else s ++ [x]

/-- The statement `exts_[key].insert(ext)` on the
`std::map<std::string, std::set<std::string>>`, which is kept as a list of
entries with distinct keys: the entry of the key is created when there is
none.  The order of the entries is not the sorted one of `std::map`; only
searches are made on the map. -/
def mapInsert (m : List (String × List String)) (key ext : String) :
    List (String × List String) :=
  match m with
  | [] => [(key, [ext])]
  | (k, s) :: rest =>
    if k = key then (k, setInsert s ext) :: rest else (k, s) :: mapInsert rest key ext

/-- The enumeration `PixelFormat` (core/formats.h): the enumerators that
capabilities_vk.cc names; every other one is kept apart by its number. -/
inductive PixelFormat where
  | kUnknown
  | kR8UNormInt
  | kS8UInt
  | kD24UnormS8Uint
  | kD32FloatS8UInt
  | kOther (tag : Nat)
  deriving DecidableEq

/-- The enumeration `RequiredCommonDeviceExtensionVK`. -/
inductive RequiredCommonDeviceExtensionVK where
  | kKHRSwapchain
  | kLast
  deriving DecidableEq

/-- The enumeration `RequiredAndroidDeviceExtensionVK`. -/
inductive RequiredAndroidDeviceExtensionVK where
  | kANDROIDExternalMemoryAndroidHardwareBuffer
  | kKHRSamplerYcbcrConversion
  | kKHRExternalMemory
  | kEXTQueueFamilyForeign
  | kKHRDedicatedAllocation
  | kLast
  deriving DecidableEq

/-- The enumeration `OptionalDeviceExtensionVK`. -/
inductive OptionalDeviceExtensionVK where
  | kEXTPipelineCreationFeedback
  | kVKKHRPortabilitySubset
  | kLast
  deriving DecidableEq

/-- The members of the class `CapabilitiesVK` (capabilities_vk.h). -/
structure CapabilitiesVK where
  validations_enabled_ : Bool
  exts_ : List (String × List String)
  required_common_device_extensions_ : List RequiredCommonDeviceExtensionVK
  required_android_device_extensions_ : List RequiredAndroidDeviceExtensionVK
  optional_device_extensions_ : List OptionalDeviceExtensionVK
  default_color_format_ : PixelFormat
  default_stencil_format_ : PixelFormat
  default_depth_stencil_format_ : PixelFormat
  device_properties_ : vk.PhysicalDeviceProperties
  supports_compute_subgroups_ : Bool
  is_valid_ : Bool

/-- The constant `kInstanceLayer`. -/
def kInstanceLayer : String := "ImpellerInstance"

/-- The members as their default initialisers in capabilities_vk.h leave them
when the constructor starts: empty containers, `false` flags, unknown
formats. -/
def CapabilitiesVK.initial : CapabilitiesVK :=
  { validations_enabled_ := false,
    exts_ := [],
    required_common_device_extensions_ := [],
    required_android_device_extensions_ := [],
    optional_device_extensions_ := [],
    default_color_format_ := PixelFormat.kUnknown,
    default_stencil_format_ := PixelFormat.kUnknown,
    default_depth_stencil_format_ := PixelFormat.kUnknown,
    device_properties_ := { framebufferColorSampleCounts := 0 },
    supports_compute_subgroups_ := false,
    is_valid_ := false }

/-- The method `CapabilitiesVK::HasLayer` (capabilities_vk.cc, lines 392 to
399). -/
def CapabilitiesVK.HasLayer (self : CapabilitiesVK) (layer : String) : Bool :=
  self.exts_.any (fun entry => decide (entry.1 = layer))

/-- The method `CapabilitiesVK::HasExtension(const std::string&)`
(capabilities_vk.cc, lines 401 to 408). -/
def CapabilitiesVK.HasExtension (self : CapabilitiesVK) (ext : String) : Bool :=
  self.exts_.any (fun entry => decide (ext ∈ entry.2))

/-- The loop of the constructor over the extensions of one layer (or of the
instance): `exts_[layer_name].insert(extensionName)` for each. -/
def insertExtensions (m : List (String × List String)) (layer_name : String) :
    List String → List (String × List String)
  | [] => m
  | ext :: rest => insertExtensions (mapInsert m layer_name ext) layer_name rest

/-- The loop of the constructor over the enumerated layers (lines 30 to 39):
`false` when the enumeration of the extensions of a layer failed, at which
point the constructor returns, together with the map as it is then. -/
def insertLayers (loader : vk.Loader) (m : List (String × List String)) :
    List String → Bool × List (String × List String)
  | [] => (true, m)
  | layer_name :: rest =>
    let layer_exts := loader.enumerateInstanceExtensionProperties (some layer_name)
    if layer_exts.result ≠ vk.Result.eSuccess then (false, m)
    else insertLayers loader (insertExtensions m layer_name layer_exts.value) rest

/-- The constructor `CapabilitiesVK::CapabilitiesVK(bool enable_validations)`
(capabilities_vk.cc, lines 17 to 53); the log messages are left out.  It is
named `construct` because a declaration cannot carry the name of its own
namespace. -/
def CapabilitiesVK.construct (loader : vk.Loader) (enable_validations : Bool) :
    CapabilitiesVK :=
  let self := CapabilitiesVK.initial
  let extensions := loader.enumerateInstanceExtensionProperties none
  let layers := loader.enumerateInstanceLayerProperties
  if extensions.result ≠ vk.Result.eSuccess ∨ layers.result ≠ vk.Result.eSuccess then self
  else
    let self := { self with
      exts_ := insertExtensions self.exts_ kInstanceLayer extensions.value }
    let looped := insertLayers loader self.exts_ layers.value
    let self := { self with exts_ := looped.2 }
    if looped.1 = false then self
    else
      let self := { self with
        validations_enabled_ :=
          enable_validations && self.HasLayer "VK_LAYER_KHRONOS_validation" }
      { self with is_valid_ := true }

/-- The getter `CapabilitiesVK::IsValid`. -/
def CapabilitiesVK.IsValid (self : CapabilitiesVK) : Bool :=
  self.is_valid_

/-- The getter `CapabilitiesVK::AreValidationsEnabled`. -/
def CapabilitiesVK.AreValidationsEnabled (self : CapabilitiesVK) : Bool :=
  self.validations_enabled_

/-- The method `CapabilitiesVK::GetEnabledLayers` (capabilities_vk.cc, lines
65 to 75). -/
def CapabilitiesVK.GetEnabledLayers (self : CapabilitiesVK) : Option (List String) :=
  let required : List String := []
  let required :=
    if self.validations_enabled_ then required ++ ["VK_LAYER_KHRONOS_validation"]
    else required
  some required

/-- The block that `GetEnabledInstanceExtensions` repeats for each
window-system extension (lines 90 to 128), acting on the pair of the local
variables `required` and `has_wsi`:
`if (HasExtension(name)) { required.push_back(name); has_wsi = true; }`. -/
def CapabilitiesVK.pushIfHasExtension (self : CapabilitiesVK) (name : String)
    (locals : List String × Bool) : List String × Bool :=
  if self.HasExtension name then (locals.1 ++ [name], true) else locals

/-- The method `CapabilitiesVK::GetEnabledInstanceExtensions`
(capabilities_vk.cc, lines 77 to 153); the validation log is left out. -/
def CapabilitiesVK.GetEnabledInstanceExtensions (self : CapabilitiesVK) :
    Option (List String) :=
  let required : List String := []
  if !self.HasExtension "VK_KHR_surface" then none
  else
    let required := required ++ ["VK_KHR_surface"]
    let has_wsi := false
    let locals := (required, has_wsi)
    let locals := self.pushIfHasExtension "VK_MVK_macos_surface" locals
    let locals := self.pushIfHasExtension "VK_EXT_metal_surface" locals
    let locals := self.pushIfHasExtension "VK_KHR_portability_enumeration" locals
    let locals := self.pushIfHasExtension "VK_KHR_win32_surface" locals
    let locals := self.pushIfHasExtension "VK_KHR_android_surface" locals
    let locals := self.pushIfHasExtension "VK_KHR_xcb_surface" locals
    let locals := self.pushIfHasExtension "VK_KHR_xlib_surface" locals
    let locals := self.pushIfHasExtension "VK_KHR_wayland_surface" locals
    let required := locals.1
    let has_wsi := locals.2
    if !has_wsi then none
    else if self.validations_enabled_ then
      if !self.HasExtension "VK_EXT_debug_utils" then none
      else
        let required := required ++ ["VK_EXT_debug_utils"]
        let required :=
          if self.HasExtension "VK_EXT_validation_features" then
            required ++ ["VK_EXT_validation_features"]
          else required
        some required
    else some required

end impeller

namespace impeller

/-- The conversions that `IterateExtensions` and the enumerations share:
`static_cast<uint32_t>(T::kLast)` and `static_cast<T>(i)`. -/
class ExtensionEnum (T : Type) where
  kLastIndex : Nat
  ofIndex : Nat → T

instance : ExtensionEnum RequiredCommonDeviceExtensionVK :=
  { kLastIndex := 1,
    ofIndex := fun i =>
      match i with
      | 0 => RequiredCommonDeviceExtensionVK.kKHRSwapchain
      | _ => RequiredCommonDeviceExtensionVK.kLast }

instance : ExtensionEnum RequiredAndroidDeviceExtensionVK :=
  { kLastIndex := 5,
    ofIndex := fun i =>
      match i with
      | 0 => RequiredAndroidDeviceExtensionVK.kANDROIDExternalMemoryAndroidHardwareBuffer
      | 1 => RequiredAndroidDeviceExtensionVK.kKHRSamplerYcbcrConversion
      | 2 => RequiredAndroidDeviceExtensionVK.kKHRExternalMemory
      | 3 => RequiredAndroidDeviceExtensionVK.kEXTQueueFamilyForeign
      | 4 => RequiredAndroidDeviceExtensionVK.kKHRDedicatedAllocation
      | _ => RequiredAndroidDeviceExtensionVK.kLast }

instance : ExtensionEnum OptionalDeviceExtensionVK :=
  { kLastIndex := 2,
    ofIndex := fun i =>
      match i with
      | 0 => OptionalDeviceExtensionVK.kEXTPipelineCreationFeedback
      | 1 => OptionalDeviceExtensionVK.kVKKHRPortabilitySubset
      | _ => OptionalDeviceExtensionVK.kLast }

/-- The function `GetExtensionName(RequiredCommonDeviceExtensionVK)`
(capabilities_vk.cc, lines 155 to 163), with the value of the macro
`VK_KHR_SWAPCHAIN_EXTENSION_NAME` of the Vulkan headers. -/
def RequiredCommonDeviceExtensionVK.GetExtensionName :
    RequiredCommonDeviceExtensionVK → String
  | RequiredCommonDeviceExtensionVK.kKHRSwapchain => "VK_KHR_swapchain"
  | RequiredCommonDeviceExtensionVK.kLast => "Unknown"

/-- The function `GetExtensionName(RequiredAndroidDeviceExtensionVK)`
(capabilities_vk.cc, lines 165 to 182), with the values of the macros of the
Vulkan headers. -/
def RequiredAndroidDeviceExtensionVK.GetExtensionName :
    RequiredAndroidDeviceExtensionVK → String
  | RequiredAndroidDeviceExtensionVK.kANDROIDExternalMemoryAndroidHardwareBuffer =>
    "VK_ANDROID_external_memory_android_hardware_buffer"
  | RequiredAndroidDeviceExtensionVK.kKHRSamplerYcbcrConversion =>
    "VK_KHR_sampler_ycbcr_conversion"
  | RequiredAndroidDeviceExtensionVK.kKHRExternalMemory => "VK_KHR_external_memory"
  | RequiredAndroidDeviceExtensionVK.kEXTQueueFamilyForeign => "VK_EXT_queue_family_foreign"
  | RequiredAndroidDeviceExtensionVK.kKHRDedicatedAllocation => "VK_KHR_dedicated_allocation"
  | RequiredAndroidDeviceExtensionVK.kLast => "Unknown"

/-- The function `GetExtensionName(OptionalDeviceExtensionVK)`
(capabilities_vk.cc, lines 184 to 194), with the value of the macro
`VK_EXT_PIPELINE_CREATION_FEEDBACK_EXTENSION_NAME` of the Vulkan headers. -/
def OptionalDeviceExtensionVK.GetExtensionName : OptionalDeviceExtensionVK → String
  | OptionalDeviceExtensionVK.kEXTPipelineCreationFeedback =>
    "VK_EXT_pipeline_creation_feedback"
  | OptionalDeviceExtensionVK.kVKKHRPortabilitySubset => "VK_KHR_portability_subset"
  | OptionalDeviceExtensionVK.kLast => "Unknown"

/-- The loop of `IterateExtensions` over the indices still to visit.  The
callback acts on the variables it captured by reference, here the state `s`,
and the loop stops at the first `false`. -/
def iterateIndices {T σ : Type} [ExtensionEnum T] (it : T → σ → Bool × σ) :
    List Nat → σ → Bool × σ
  | [], s => (true, s)
  | i :: rest, s =>
    let step := it (ExtensionEnum.ofIndex i) s
    if step.1 = false then (false, step.2) else iterateIndices it rest step.2

/-- The template `IterateExtensions` (capabilities_vk.cc, lines 196 to 207).
An empty `std::function` is `none`. -/
def IterateExtensions {T σ : Type} [ExtensionEnum T] (it : Option (T → σ → Bool × σ))
    (s : σ) : Bool × σ :=
  match it with
  | none => (false, s)
  | some f => iterateIndices f (List.range (ExtensionEnum.kLastIndex T)) s

/-- The function `GetSupportedDeviceExtensions` (capabilities_vk.cc, lines 209
to 222). -/
def GetSupportedDeviceExtensions (physical_device : vk.PhysicalDevice) :
    Option (List String) :=
  let device_extensions := physical_device.enumerateDeviceExtensionProperties
  if device_extensions.result ≠ vk.Result.eSuccess then none
  else some (device_extensions.value.foldl setInsert [])

/-- The method `CapabilitiesVK::GetEnabledDeviceExtensions` (capabilities_vk.cc,
lines 224 to 280), which reads no member.  `is_android` tells whether
`FML_OS_ANDROID` is defined; the three callbacks act on the local `enabled`;
`&&` evaluates its right operand only when the left one is true. -/
def CapabilitiesVK.GetEnabledDeviceExtensions (is_android : Bool)
    (physical_device : vk.PhysicalDevice) : Option (List String) :=
  match GetSupportedDeviceExtensions physical_device with
  | none => none
  | some exts =>
    let enabled : List String := []
    let for_each_common_extension :=
      fun (ext : RequiredCommonDeviceExtensionVK) (enabled : List String) =>
        let name := ext.GetExtensionName
        if name ∉ exts then (false, enabled) else (true, enabled ++ [name])
    let for_each_android_extension :=
      fun (ext : RequiredAndroidDeviceExtensionVK) (enabled : List String) =>
        if is_android then
          let name := ext.GetExtensionName
          if name ∉ exts then (false, enabled) else (true, enabled ++ [name])
        else (true, enabled)
    let for_each_optional_extension :=
      fun (ext : OptionalDeviceExtensionVK) (enabled : List String) =>
        let name := ext.GetExtensionName
        if name ∈ exts then (true, enabled ++ [name]) else (true, enabled)
    let common := IterateExtensions (some for_each_common_extension) enabled
    let android :=
      if common.1 then IterateExtensions (some for_each_android_extension) common.2
      else (false, common.2)
    let optional :=
      if android.1 then IterateExtensions (some for_each_optional_extension) android.2
      else (false, android.2)
    let iterate_extensions := optional.1
    let enabled := optional.2
    if !iterate_extensions then none else some enabled

/-- The function `HasSuitableColorFormat` (capabilities_vk.cc, lines 282 to
288). -/
def HasSuitableColorFormat (device : vk.PhysicalDevice) (format : vk.Format) : Bool :=
  let props := device.optimalTilingFeatures format
  decide (props &&& vk.FormatFeatureFlagBits.eColorAttachment ≠ 0)

/-- The function `HasSuitableDepthStencilFormat` (capabilities_vk.cc, lines 290
to 295). -/
def HasSuitableDepthStencilFormat (device : vk.PhysicalDevice) (format : vk.Format) : Bool :=
  let props := device.optimalTilingFeatures format
  decide (props &&& vk.FormatFeatureFlagBits.eDepthStencilAttachment ≠ 0)

/-- The function `PhysicalDeviceSupportsRequiredFormats` (capabilities_vk.cc,
lines 297 to 305). -/
def PhysicalDeviceSupportsRequiredFormats (device : vk.PhysicalDevice) : Bool :=
  let has_color_format := HasSuitableColorFormat device vk.Format.eB8G8R8A8Unorm
  let has_stencil_format :=
    HasSuitableDepthStencilFormat device vk.Format.eD32SfloatS8Uint ||
      HasSuitableDepthStencilFormat device vk.Format.eD24UnormS8Uint
  has_color_format && has_stencil_format

/-- The function `HasRequiredProperties` (capabilities_vk.cc, lines 307 to
314). -/
def HasRequiredProperties (physical_device : vk.PhysicalDevice) : Bool :=
  let properties := physical_device.getProperties
  if properties.framebufferColorSampleCounts &&&
      (vk.SampleCountFlagBits.e1 ||| vk.SampleCountFlagBits.e4) = 0 then false
  else true

/-- The function `HasRequiredQueues` (capabilities_vk.cc, lines 316 to 328). -/
def HasRequiredQueues (physical_device : vk.PhysicalDevice) : Bool :=
  let queue_flags :=
    physical_device.getQueueFamilyProperties.foldl
      (fun flags queue => if queue.queueCount = 0 then flags else flags ||| queue.queueFlags) 0
  decide (queue_flags &&&
    (vk.QueueFlagBits.eGraphics ||| vk.QueueFlagBits.eCompute |||
      vk.QueueFlagBits.eTransfer) ≠ 0)

/-- The template `IsExtensionInList` (capabilities_vk.cc, lines 330 to 335),
applied to the name of the extension. -/
def IsExtensionInList (list : List String) (name : String) : Bool :=
  decide (name ∈ list)

/-- The part of the structure chain `CapabilitiesVK::PhysicalDeviceFeatures`
that `GetEnabledDeviceFeatures` writes. -/
structure PhysicalDeviceFeatures where
  fillModeNonSolid : Bool
  samplerYcbcrConversion : Bool
  deriving DecidableEq

/-- The method `CapabilitiesVK::GetEnabledDeviceFeatures` (capabilities_vk.cc,
lines 337 to 390), which reads no member; the validation log is left out. -/
def CapabilitiesVK.GetEnabledDeviceFeatures (is_android : Bool) (device : vk.PhysicalDevice) :
    Option PhysicalDeviceFeatures :=
  if !PhysicalDeviceSupportsRequiredFormats device then none
  else if !HasRequiredProperties device then none
  else if !HasRequiredQueues device then none
  else
    match CapabilitiesVK.GetEnabledDeviceExtensions is_android device with
    | none => none
    | some enabled_extensions =>
      let supported_chain : PhysicalDeviceFeatures :=
        { fillModeNonSolid := device.fillModeNonSolid,
          samplerYcbcrConversion := device.samplerYcbcrConversion }
      let required_chain : PhysicalDeviceFeatures :=
        { fillModeNonSolid := false, samplerYcbcrConversion := false }
      let required_chain :=
        { required_chain with fillModeNonSolid := supported_chain.fillModeNonSolid }
      let required_chain :=
        if IsExtensionInList enabled_extensions
            RequiredAndroidDeviceExtensionVK.kKHRSamplerYcbcrConversion.GetExtensionName then
          { required_chain with
            samplerYcbcrConversion := supported_chain.samplerYcbcrConversion }
        else required_chain
      some required_chain

/-- The method `CapabilitiesVK::SetPhysicalDevice` (capabilities_vk.cc, lines
414 to 478): the returned flag and the object as the call leaves it. -/
def CapabilitiesVK.SetPhysicalDevice (self : CapabilitiesVK) (device : vk.PhysicalDevice) :
    Bool × CapabilitiesVK :=
  let self :=
    if HasSuitableDepthStencilFormat device vk.Format.eD32SfloatS8Uint then
      { self with default_depth_stencil_format_ := PixelFormat.kD32FloatS8UInt }
    else if HasSuitableDepthStencilFormat device vk.Format.eD24UnormS8Uint then
      { self with default_depth_stencil_format_ := PixelFormat.kD24UnormS8Uint }
    else { self with default_depth_stencil_format_ := PixelFormat.kUnknown }
  let self :=
    if HasSuitableDepthStencilFormat device vk.Format.eS8Uint then
      { self with default_stencil_format_ := PixelFormat.kS8UInt }
    else if self.default_depth_stencil_format_ ≠ PixelFormat.kUnknown then
      { self with default_stencil_format_ := self.default_depth_stencil_format_ }
    else self
  let self := { self with device_properties_ := device.getProperties }
  let self := { self with
    supports_compute_subgroups_ :=
      decide (device.subgroupSupportedOperations &&&
        vk.SubgroupFeatureFlagBits.eArithmetic ≠ 0) }
  let self := { self with required_common_device_extensions_ := [] }
  let self := { self with required_android_device_extensions_ := [] }
  let self := { self with optional_device_extensions_ := [] }
  match GetSupportedDeviceExtensions device with
  | none => (false, self)
  | some exts =>
    let common :=
      IterateExtensions
        (some (fun (ext : RequiredCommonDeviceExtensionVK)
            (found : List RequiredCommonDeviceExtensionVK) =>
          if ext.GetExtensionName ∈ exts then (true, setInsert found ext) else (true, found)))
        self.required_common_device_extensions_
    let self := { self with required_common_device_extensions_ := common.2 }
    let android :=
      IterateExtensions
        (some (fun (ext : RequiredAndroidDeviceExtensionVK)
            (found : List RequiredAndroidDeviceExtensionVK) =>
          if ext.GetExtensionName ∈ exts then (true, setInsert found ext) else (true, found)))
        self.required_android_device_extensions_
    let self := { self with required_android_device_extensions_ := android.2 }
    let optional :=
      IterateExtensions
        (some (fun (ext : OptionalDeviceExtensionVK) (found : List OptionalDeviceExtensionVK) =>
          if ext.GetExtensionName ∈ exts then (true, setInsert found ext) else (true, found)))
        self.optional_device_extensions_
    let self := { self with optional_device_extensions_ := optional.2 }
    (true, self)

/-- The getter `CapabilitiesVK::GetDefaultStencilFormat`. -/
def CapabilitiesVK.GetDefaultStencilFormat (self : CapabilitiesVK) : PixelFormat :=
  self.default_stencil_format_

/-- The getter `CapabilitiesVK::GetDefaultDepthStencilFormat`. -/
def CapabilitiesVK.GetDefaultDepthStencilFormat (self : CapabilitiesVK) : PixelFormat :=
  self.default_depth_stencil_format_

end impeller

namespace impeller

/-- A sample loader: the instance advertises the surface extension, the XCB
window-system extension and the debug utilities; two layers are enumerated,
the validation layer with two extensions and a layer without any. -/
def sampleLoader : vk.Loader :=
  { enumerateInstanceExtensionProperties := fun layer =>
      match layer with
      | none =>
        { result := vk.Result.eSuccess,
          value := ["VK_KHR_surface", "VK_KHR_xcb_surface", "VK_EXT_debug_utils"] }
      | some name =>
        if name = "VK_LAYER_KHRONOS_validation" then
          { result := vk.Result.eSuccess,
            value := ["VK_EXT_debug_utils", "VK_EXT_validation_features"] }
        else { result := vk.Result.eSuccess, value := [] },
    enumerateInstanceLayerProperties :=
      { result := vk.Result.eSuccess,
        value := ["VK_LAYER_KHRONOS_validation", "VK_LAYER_LUNARG_monitor"] } }

/-- A sample loader without layers whose instance advertises the surface
extension and the portability enumeration but no window-system extension. -/
def portabilityLoader : vk.Loader :=
  { enumerateInstanceExtensionProperties := fun layer =>
      match layer with
      | none =>
        { result := vk.Result.eSuccess,
          value := ["VK_KHR_surface", "VK_KHR_portability_enumeration"] }
      | some _ => { result := vk.Result.eSuccess, value := [] },
    enumerateInstanceLayerProperties := { result := vk.Result.eSuccess, value := [] } }

/-- A sample physical device: swapchain and pipeline creation feedback among
its extensions, `B8G8R8A8Unorm` usable as colour attachment, `D24UnormS8Uint`
(but neither `D32SfloatS8Uint` nor `S8Uint`) usable as depth-stencil
attachment. -/
def sampleDevice : vk.PhysicalDevice :=
  { enumerateDeviceExtensionProperties :=
      { result := vk.Result.eSuccess,
        value := ["VK_KHR_maintenance1", "VK_KHR_swapchain",
          "VK_EXT_pipeline_creation_feedback"] },
    optimalTilingFeatures := fun format =>
      match format with
      | vk.Format.eB8G8R8A8Unorm => 0x80
      | vk.Format.eD24UnormS8Uint => 0x200
      | _ => 0,
    getProperties := { framebufferColorSampleCounts := 0x5 },
    getQueueFamilyProperties := [{ queueFlags := 0x7, queueCount := 1 }],
    subgroupSupportedOperations := 0x4,
    fillModeNonSolid := true,
    samplerYcbcrConversion := false }

end impeller

namespace impeller

namespace fb

/-- The enumeration `fb::UniformDataType` of the runtime-stage flatbuffer
schema, as `ToType` switches over it. -/
inductive UniformDataType where
  | kBoolean
  | kSignedByte
  | kUnsignedByte
  | kSignedShort
  | kUnsignedShort
  | kSignedInt
  | kUnsignedInt
  | kSignedInt64
  | kUnsignedInt64
  | kHalfFloat
  | kFloat
  | kDouble
  | kSampledImage
  deriving DecidableEq

/-- The enumeration `fb::Stage`, as `ToShaderStage` switches over it. -/
inductive Stage where
  | kVertex
  | kFragment
  | kCompute
  deriving DecidableEq

/-- One uniform of a runtime-stage descriptor (`fb::UniformDescription`), with
the accessors the constructor of `RuntimeStage` calls.  The name is
dereferenced unconditionally and is therefore present; the numbers are
unsigned 64-bit values. -/
structure UniformDescription where
  name : String
  location : Nat
  type : UniformDataType
  bit_width : Nat
  rows : Nat
  columns : Nat
  array_elements : Nat
  deriving DecidableEq

/-- A runtime-stage descriptor (`fb::RuntimeStage`), with the accessors the
constructor of `RuntimeStage` calls.  The entrypoint and the shader are
dereferenced unconditionally and are therefore present; the vector of
uniforms may be absent (a null pointer, `none`); the shader is its bytes. -/
structure RuntimeStage where
  stage : Stage
  entrypoint : String
  uniforms : Option (List UniformDescription)
  shader : List Nat
  deriving DecidableEq

end fb

/-- The enumeration `RuntimeUniformType` (runtime_types.h). -/
inductive RuntimeUniformType where
  | kBoolean
  | kSignedByte
  | kUnsignedByte
  | kSignedShort
  | kUnsignedShort
  | kSignedInt
  | kUnsignedInt
  | kSignedInt64
  | kUnsignedInt64
  | kHalfFloat
  | kFloat
  | kDouble
  | kSampledImage
  deriving DecidableEq

/-- The enumeration `RuntimeShaderStage` (runtime_types.h). -/
inductive RuntimeShaderStage where
  | kVertex
  | kFragment
  | kCompute
  deriving DecidableEq

/-- The structure `RuntimeUniformDimensions`: rows and columns as `size_t`. -/
structure RuntimeUniformDimensions where
  rows : Nat
  cols : Nat
  deriving DecidableEq

/-- The members of `RuntimeUniformDescription` that the constructor of
`RuntimeStage` assigns.  `size_t` is taken to be as wide as the 64-bit numbers
of the descriptor, so that the conversions keep the value; the member
`array_elements` is a `std::optional<size_t>`. -/
structure RuntimeUniformDescription where
  name : String
  location : Nat
  type : RuntimeUniformType
  dimensions : RuntimeUniformDimensions
  bit_width : Nat
  array_elements : Option Nat
  deriving DecidableEq

/-- The function `ToType` (runtime_stage.cc, lines 17 to 47). -/
def ToType : fb.UniformDataType → RuntimeUniformType
  | fb.UniformDataType.kBoolean => RuntimeUniformType.kBoolean
  | fb.UniformDataType.kSignedByte => RuntimeUniformType.kSignedByte
  | fb.UniformDataType.kUnsignedByte => RuntimeUniformType.kUnsignedByte
  | fb.UniformDataType.kSignedShort => RuntimeUniformType.kSignedShort
  | fb.UniformDataType.kUnsignedShort => RuntimeUniformType.kUnsignedShort
  | fb.UniformDataType.kSignedInt => RuntimeUniformType.kSignedInt
  | fb.UniformDataType.kUnsignedInt => RuntimeUniformType.kUnsignedInt
  | fb.UniformDataType.kSignedInt64 => RuntimeUniformType.kSignedInt64
  | fb.UniformDataType.kUnsignedInt64 => RuntimeUniformType.kUnsignedInt64
  | fb.UniformDataType.kHalfFloat => RuntimeUniformType.kHalfFloat
  | fb.UniformDataType.kFloat => RuntimeUniformType.kFloat
  | fb.UniformDataType.kDouble => RuntimeUniformType.kDouble
  | fb.UniformDataType.kSampledImage => RuntimeUniformType.kSampledImage

/-- The function `ToShaderStage` (runtime_stage.cc, lines 49 to 59). -/
def ToShaderStage : fb.Stage → RuntimeShaderStage
  | fb.Stage.kVertex => RuntimeShaderStage.kVertex
  | fb.Stage.kFragment => RuntimeShaderStage.kFragment
  | fb.Stage.kCompute => RuntimeShaderStage.kCompute

/-- The members of the class `RuntimeStage` that its constructor writes.  The
payload is a shared pointer to a mapping, given by its bytes and `none` when
null; the code mapping is given by the bytes it covers. -/
structure RuntimeStage where
  payload_ : Option (List Nat)
  stage_ : RuntimeShaderStage
  entrypoint_ : String
  code_mapping_ : Option (List Nat)
  uniforms_ : List RuntimeUniformDescription
  is_valid_ : Bool
  deriving DecidableEq

/-- The members as the initialiser list and the default initialisers leave
them when the body of the constructor starts. -/
def RuntimeStage.initial (payload : Option (List Nat)) : RuntimeStage :=
  { payload_ := payload,
    stage_ := RuntimeShaderStage.kVertex,
    entrypoint_ := "",
    code_mapping_ := none,
    uniforms_ := [],
    is_valid_ := false }

/-- The body of the loop of the constructor over the uniforms
(runtime_stage.cc, lines 105 to 113). -/
def RuntimeStage.emplaceUniform (self : RuntimeStage) (i : fb.UniformDescription) :
    RuntimeStage :=
  let desc : RuntimeUniformDescription :=
    { name := i.name,
      location := i.location,
      type := ToType i.type,
      dimensions := { rows := i.rows, cols := i.columns },
      bit_width := i.bit_width,
      array_elements := some i.array_elements }
  { self with uniforms_ := self.uniforms_ ++ [desc] }

/-- The constructor `RuntimeStage::RuntimeStage` (runtime_stage.cc, lines 94 to
124), applied to a descriptor that is not null, as `RuntimeStageIfPresent`
guarantees and `FML_DCHECK` asserts.  It is named `construct` because a
declaration cannot carry the name of its own namespace. -/
def RuntimeStage.construct (runtime_stage : fb.RuntimeStage) (payload : Option (List Nat)) :
    RuntimeStage :=
  let self := RuntimeStage.initial payload
  let self := { self with stage_ := ToShaderStage runtime_stage.stage }
  let self := { self with entrypoint_ := runtime_stage.entrypoint }
  let self :=
    match runtime_stage.uniforms with
    | none => self
    | some uniforms => uniforms.foldl RuntimeStage.emplaceUniform self
  let self := { self with code_mapping_ := some runtime_stage.shader }
  { self with is_valid_ := true }

/-- The function `RuntimeStage::RuntimeStageIfPresent` (runtime_stage.cc, lines
61 to 70); a null descriptor is `none`. -/
def RuntimeStage.RuntimeStageIfPresent (runtime_stage : Option fb.RuntimeStage)
    (payload : Option (List Nat)) : Option RuntimeStage :=
  match runtime_stage with
  | none => none
  | some stage => some (RuntimeStage.construct stage payload)

/-- The getter `RuntimeStage::IsValid`. -/
def RuntimeStage.IsValid (self : RuntimeStage) : Bool :=
  self.is_valid_

/-- The getter `RuntimeStage::GetUniforms`. -/
def RuntimeStage.GetUniforms (self : RuntimeStage) : List RuntimeUniformDescription :=
  self.uniforms_

/-- The getter `RuntimeStage::GetEntrypoint`. -/
def RuntimeStage.GetEntrypoint (self : RuntimeStage) : String :=
  self.entrypoint_

/-- The getter `RuntimeStage::GetShaderStage`. -/
def RuntimeStage.GetShaderStage (self : RuntimeStage) : RuntimeShaderStage :=
  self.stage_

/-- A sample descriptor: a fragment stage with two uniforms. -/
def sampleRuntimeStage : fb.RuntimeStage :=
  { stage := fb.Stage.kFragment,
    entrypoint := "main",
    uniforms := some
      [{ name := "u_color", location := 0, type := fb.UniformDataType.kFloat,
         bit_width := 32, rows := 4, columns := 1, array_elements := 0 },
       { name := "u_texture", location := 1, type := fb.UniformDataType.kSampledImage,
         bit_width := 0, rows := 1, columns := 1, array_elements := 0 }],
    shader := [3, 2, 35, 7] }

end impeller

namespace flutter

/-- What `RasterizeToImage` uses of the Dart embedding interface on a
`Dart_Handle`: `Dart_IsNull` and `Dart_IsClosure`. -/
class DartApi (Dart_Handle : Type) where
  Dart_IsNull : Dart_Handle → Bool
  Dart_IsClosure : Dart_Handle → Bool

/-- The value that `RasterizeToImage` hands back to Dart: `Dart_Null()`, or the
string made by `tonic::ToDart` from a C string. -/
inductive DartReturn where
  | null
  | string (message : String)
  deriving DecidableEq

/-- The argument of a call of the image callback: `Dart_Null()` or the wrapper
of a raster image. -/
inductive DartArgument where
  | null
  | image
  deriving DecidableEq

/-- A call `tonic::DartInvoke(image_callback->Get(), {argument})`. -/
structure DartInvocation (Dart_Handle : Type) where
  closure : Dart_Handle
  argument : DartArgument

/-- The task that `RasterizeToImage` hands to
`fml::TaskRunner::RunNowOrPostTask(raster_task_runner, ...)`, given by what it
captures: the draw callback (an empty `std::function` is `none`), the layer
tree (a null pointer is `none`), the picture bounds and, through the UI task,
the persistent handle of the image callback. -/
structure RasterTask (DrawCallback LayerTree Dart_Handle : Type) where
  draw_callback : Option DrawCallback
  layer_tree : Option LayerTree
  picture_bounds : Int × Int
  image_callback : Dart_Handle

/-- What a call of `RasterizeToImage` has done when it returns: the returned
value, the tasks handed to the raster task runner and the calls of the image
callback made so far. -/
structure RasterizeOutcome (DrawCallback LayerTree Dart_Handle : Type) where
  result : DartReturn
  raster_tasks : List (RasterTask DrawCallback LayerTree Dart_Handle)
  callback_invocations : List (DartInvocation Dart_Handle)

/-- The conversion of a `uint32_t` to the `int32_t` parameter of
`SkISize::Make`. -/
def toInt32 (n : Nat) : Int :=
  if n % 2 ^ 32 < 2 ^ 31 then ((n % 2 ^ 32 : Nat) : Int) else ((n % 2 ^ 32 : Nat) : Int) - 2 ^ 32

/-- The method `Picture::RasterizeToImage` with five parameters (picture.cc,
lines 110 to 197).  `RunNowOrPostTask` stands for
`fml::TaskRunner::RunNowOrPostTask` on the raster task runner: it yields the
calls of the image callback that happen before it returns, none when the task
is only posted.  `UIDartState::Current()` is dereferenced unconditionally and
is taken to be present. -/
def Picture.RasterizeToImage {DrawCallback LayerTree Dart_Handle : Type} [DartApi Dart_Handle]
    (RunNowOrPostTask : RasterTask DrawCallback LayerTree Dart_Handle →
      List (DartInvocation Dart_Handle))
    (draw_callback : Option DrawCallback) (layer_tree : Option LayerTree)
    (width height : Nat) (raw_image_callback : Dart_Handle) :
    RasterizeOutcome DrawCallback LayerTree Dart_Handle :=
  if DartApi.Dart_IsNull raw_image_callback || !DartApi.Dart_IsClosure raw_image_callback then
    { result := DartReturn.string "Image callback was invalid",
      raster_tasks := [], callback_invocations := [] }
  else if width = 0 ∨ height = 0 then
    { result := DartReturn.string "Image dimensions for scene were invalid.",
      raster_tasks := [], callback_invocations := [] }
  else
    let image_callback := raw_image_callback
    let picture_bounds := (toInt32 width, toInt32 height)
    let task : RasterTask DrawCallback LayerTree Dart_Handle :=
      { draw_callback := draw_callback,
        layer_tree := layer_tree,
        picture_bounds := picture_bounds,
        image_callback := image_callback }
    { result := DartReturn.null,
      raster_tasks := [task],
      callback_invocations := RunNowOrPostTask task }

/-- A sample kind of Dart handle: null, a closure, or some other object. -/
inductive SampleHandle where
  | null
  | closure (id : Nat)
  | object (id : Nat)
  deriving DecidableEq

instance : DartApi SampleHandle :=
  { Dart_IsNull := fun handle =>
      match handle with
      | SampleHandle.null => true
      | _ => false,
    Dart_IsClosure := fun handle =>
      match handle with
      | SampleHandle.closure _ => true
      | _ => false }

/-- A sample `RunNowOrPostTask` that runs the raster task and the UI task at
once: the image callback is invoked with an image before it returns. -/
def sampleRunNowOrPostTask (task : RasterTask Unit Unit SampleHandle) :
    List (DartInvocation SampleHandle) :=
  [{ closure := task.image_callback, argument := DartArgument.image }]

end flutter

/-! ## Properties of `Contents::RenderToSnapshot` and `Contents::ShouldRender` -/

namespace impeller

/-- The operator `*` on matrices is `Matrix::Multiply`. -/
theorem Matrix.mul_def (a o : Matrix) : a * o = Matrix.Multiply a o := rfl

/-- Composing the translation by a point with the translation by its negative,
and then with any matrix, gives that matrix back. -/
theorem Matrix.translation_cancel (o : Point) (M : Matrix) :
    Matrix.MakeTranslation (Vector3.ofPoint o) *
      (Matrix.MakeTranslation (Vector3.ofPoint o.neg) * M) = M := by
  cases M
  simp only [Matrix.mul_def, Matrix.Multiply, Matrix.MakeTranslation, Vector3.ofPoint,
    Point.neg, Matrix.mk.injEq]
  refine ⟨?_, ?_, ?_, ?_, ?_, ?_, ?_, ?_, ?_, ?_, ?_, ?_, ?_, ?_, ?_, ?_⟩ <;> ring

/-- A translation moves every point by its vector. -/
theorem Matrix.translation_TransformPoint (t p : Point) :
    (Matrix.MakeTranslation (Vector3.ofPoint t)).TransformPoint p =
      { x := p.x + t.x, y := p.y + t.y } := by
  simp [Matrix.TransformPoint, Matrix.MakeTranslation, Vector3.ofPoint]

/-- C1: `Contents::RenderToSnapshot` returns a snapshot if and only if
`GetCoverage(entity)` is present and `MakeSubpass`, called with the ceiling of
the coverage size and the render callback, yields a non-null texture; it
returns no result exactly when the coverage is absent or no texture was
obtained; and `MakeSubpass` is not called at all exactly when the coverage is
absent. -/
theorem RenderToSnapshot_returns_snapshot_iff {Renderer Pass Texture : Type}
    (MakeSubpass : MakeSubpassFn Renderer Pass Texture)
    (contents : Contents Renderer Pass) (renderer : Renderer) (entity : Entity) :
    ((contents.RenderToSnapshot MakeSubpass renderer entity).result.isSome = true ↔
      ∃ coverage, contents.GetCoverage entity = some coverage ∧
        (MakeSubpass renderer (ISize.Ceil coverage.size)
          (fun r pass => contents.Render r (SubEntity entity coverage) pass)).isSome = true) ∧
    ((contents.RenderToSnapshot MakeSubpass renderer entity).result = none ↔
      (contents.GetCoverage entity = none ∨
        ∃ coverage, contents.GetCoverage entity = some coverage ∧
          MakeSubpass renderer (ISize.Ceil coverage.size)
            (fun r pass => contents.Render r (SubEntity entity coverage) pass) = none)) ∧
    ((contents.RenderToSnapshot MakeSubpass renderer entity).subpasses = [] ↔
      contents.GetCoverage entity = none) := by
  unfold Contents.RenderToSnapshot
  cases hcov : contents.GetCoverage entity with
  | none => simp
  | some coverage =>
    cases htex : MakeSubpass renderer (ISize.Ceil coverage.size)
        (fun r pass => contents.Render r (SubEntity entity coverage) pass) with
    | none => simp [htex]
    | some texture => simp [htex]

/-- C2: when the coverage of a content is the rectangle with origin `(x, y)`
and size `(w, h)`, `RenderToSnapshot` makes exactly one `MakeSubpass` request,
for a target of size `(ceil w, ceil h)`, and every snapshot it returns has as
transform the translation by `(x, y)`, which moves each point `p` to
`p + (x, y)`. -/
theorem RenderToSnapshot_target_size_and_placement {Renderer Pass Texture : Type}
    (MakeSubpass : MakeSubpassFn Renderer Pass Texture)
    (contents : Contents Renderer Pass) (renderer : Renderer) (entity : Entity)
    (x y w h : Scalar)
    (hcov : contents.GetCoverage entity =
      some { origin := { x := x, y := y }, size := { width := w, height := h } }) :
    (contents.RenderToSnapshot MakeSubpass renderer entity).subpasses.map
        (fun request => request.texture_size) =
      [{ width := Int.ceil w, height := Int.ceil h }] ∧
    (∀ snapshot, (contents.RenderToSnapshot MakeSubpass renderer entity).result = some snapshot →
      snapshot.transform = Matrix.MakeTranslation { x := x, y := y, z := 0 } ∧
      ∀ p : Point, snapshot.transform.TransformPoint p = { x := p.x + x, y := p.y + y }) := by
  unfold Contents.RenderToSnapshot
  rw [hcov]
  constructor
  · dsimp only
    split <;> rfl
  · intro snapshot hres
    dsimp only at hres
    split at hres
    · exact absurd hres (by simp)
    · have hs : snapshot.transform =
          Matrix.MakeTranslation (Vector3.ofPoint { x := x, y := y }) := by
        cases hres
        rfl
      refine ⟨by rw [hs]; rfl, ?_⟩
      intro p
      rw [hs, Matrix.translation_TransformPoint]

/-- Witness of C2 at the coverage `(x=10, y=20, w=30, h=40)`: the target is
30 by 40 and the snapshot is placed by the translation by `(10, 20)`. -/
theorem RenderToSnapshot_target_size_and_placement_witness :
    sampleContents.GetCoverage sampleEntity =
        some { origin := { x := 10, y := 20 }, size := { width := 30, height := 40 } } ∧
      (sampleContents.RenderToSnapshot sampleMakeSubpass () sampleEntity).subpasses.map
          (fun request => request.texture_size) = [{ width := 30, height := 40 }] ∧
      (sampleContents.RenderToSnapshot sampleMakeSubpass () sampleEntity).result.map
          (fun snapshot => snapshot.transform) =
        some (Matrix.MakeTranslation { x := 10, y := 20, z := 0 }) := by
  have key := RenderToSnapshot_target_size_and_placement sampleMakeSubpass sampleContents ()
    sampleEntity 10 20 30 40 rfl
  refine ⟨rfl, ?_, ?_⟩
  · have h30 : Int.ceil (30 : Scalar) = 30 := by exact_mod_cast Int.ceil_intCast (30 : ℤ)
    have h40 : Int.ceil (40 : Scalar) = 40 := by exact_mod_cast Int.ceil_intCast (40 : ℤ)
    rw [key.1, h30, h40]
  · rfl

/-- C4: `Contents::ShouldRender` is true if and only if `GetCoverage(entity)`
is present and the rectangle with origin `(0, 0)` and the target size
intersects it (`IntersectsWithRect`); it is false exactly when there is no
coverage or the two rectangles do not intersect. -/
theorem ShouldRender_iff_coverage_intersects_target {Renderer Pass : Type}
    (IntersectsWithRect : Rect → Rect → Bool)
    (contents : Contents Renderer Pass) (entity : Entity) (target_size : ISize) :
    (contents.ShouldRender IntersectsWithRect entity target_size = true ↔
      ∃ coverage, contents.GetCoverage entity = some coverage ∧
        IntersectsWithRect
          { origin := { x := 0, y := 0 },
            size := { width := target_size.width, height := target_size.height } }
          coverage = true) ∧
    (contents.ShouldRender IntersectsWithRect entity target_size = false ↔
      (contents.GetCoverage entity = none ∨
        ∃ coverage, contents.GetCoverage entity = some coverage ∧
          IntersectsWithRect
            { origin := { x := 0, y := 0 },
              size := { width := target_size.width, height := target_size.height } }
            coverage = false)) := by
  unfold Contents.ShouldRender Rect.MakeSize
  cases hcov : contents.GetCoverage entity with
  | none => simp
  | some coverage => simp

end impeller

/-! ## Properties of `MockLayer` -/

namespace flutter

section MockLayerProperties

variable {SkPath SkPaint SkMatrix MutatorsStack : Type}

/-- C5: `L.IsReplacing(context, C)` is true if and only if `C` is a mock layer
whose draw path equals the path of `L` and whose paint equals the paint of
`L`; it is false for every candidate of another layer kind, and true for every
mock layer with an identical path and paint, whatever its other members. -/
theorem IsReplacing_iff_same_path_and_paint [DecidableEq SkPath] [DecidableEq SkPaint]
    (L : MockLayer SkPath SkPaint SkMatrix MutatorsStack) (context : DiffContext)
    (C : Layer SkPath SkPaint SkMatrix MutatorsStack) :
    (L.IsReplacing context C = true ↔
      ∃ mock_layer, C = Layer.mock mock_layer ∧
        mock_layer.fake_paint_path_ = L.fake_paint_path_ ∧
        mock_layer.fake_paint_ = L.fake_paint_) ∧
    (∀ (unique_id : Nat) (paint_bounds : SkRect),
      L.IsReplacing context (Layer.other unique_id paint_bounds) = false) ∧
    (∀ A : MockLayer SkPath SkPaint SkMatrix MutatorsStack,
      A.fake_paint_path_ = L.fake_paint_path_ → A.fake_paint_ = L.fake_paint_ →
        L.IsReplacing context (Layer.mock A) = true) := by
  refine ⟨?_, ?_, ?_⟩
  · cases C with
    | mock layer =>
      simp only [MockLayer.IsReplacing, Layer.as_mock_layer, Bool.and_eq_true,
        decide_eq_true_eq, Layer.mock.injEq]
      constructor
      · rintro ⟨hpaint, hpath⟩
        exact ⟨layer, rfl, hpath, hpaint⟩
      · rintro ⟨m, rfl, hpath, hpaint⟩
        exact ⟨hpaint, hpath⟩
    | other unique_id paint_bounds =>
      simp [MockLayer.IsReplacing, Layer.as_mock_layer]
  · intro unique_id paint_bounds
    rfl
  · intro A hpath hpaint
    simp [MockLayer.IsReplacing, Layer.as_mock_layer, hpath, hpaint]

/-- The scenario of C5: the sample layer A and a layer A' built with the
same path and paint (another identity, other flags) replace each other. -/
theorem IsReplacing_identical_path_and_paint_example :
    sampleLayer.IsReplacing sampleDiffContext
      (Layer.mock { sampleLayer with unique_id_ := 2, fake_has_platform_view_ := false }) = true :=
  (IsReplacing_iff_same_path_and_paint sampleLayer sampleDiffContext
    (Layer.mock { sampleLayer with unique_id_ := 2, fake_has_platform_view_ := false })).2.2
      { sampleLayer with unique_id_ := 2, fake_has_platform_view_ := false } rfl rfl

/-- What `MockLayer::Diff` leaves in each field of the context. -/
theorem Diff_fields [SkPathApi SkPath]
    (L : MockLayer SkPath SkPaint SkMatrix MutatorsStack) (context : DiffContext)
    (old_layer : Option (Layer SkPath SkPaint SkMatrix MutatorsStack)) :
    (L.Diff context old_layer).saved_cursors = context.saved_cursors ∧
    (L.Diff context old_layer).cursor = context.cursor ∧
    (L.Diff context old_layer).to_active_space = context.to_active_space ∧
    (L.Diff context old_layer).rects =
      context.rects ++ (context.to_active_space (SkPathApi.getBounds L.fake_paint_path_)).toList ∧
    (L.Diff context old_layer).this_frame_paint_region =
      (fun id => if id = L.unique_id_ then
          some (context.to_active_space (SkPathApi.getBounds L.fake_paint_path_)).toList
        else context.this_frame_paint_region id) := by
  unfold MockLayer.Diff
  cases hmap : context.to_active_space (SkPathApi.getBounds L.fake_paint_path_) with
  | none =>
    simp [DiffContext.BeginSubtree, DiffContext.AddLayerBounds, DiffContext.SetLayerPaintRegion,
      DiffContext.CurrentSubtreeRegion, DiffContext.EndSubtree, hmap]
  | some paint_rect =>
    simp [DiffContext.BeginSubtree, DiffContext.AddLayerBounds, DiffContext.SetLayerPaintRegion,
      DiffContext.CurrentSubtreeRegion, DiffContext.EndSubtree, hmap]

/-- C6: `MockLayer::Diff` is balanced.  After it returns, the stack of saved
cursors is the one before the call (so it has the same depth) and the current
subtree cursor is the one before the call; and a sibling diffed next records
the same region as if this layer had not been diffed at all, namely its own
path bounds in the active space and none of the rectangles this layer
accumulated. -/
theorem Diff_checkpoint_balanced [SkPathApi SkPath]
    (L : MockLayer SkPath SkPaint SkMatrix MutatorsStack) (context : DiffContext)
    (old_layer : Option (Layer SkPath SkPaint SkMatrix MutatorsStack)) :
    (L.Diff context old_layer).saved_cursors = context.saved_cursors ∧
    (L.Diff context old_layer).saved_cursors.length = context.saved_cursors.length ∧
    (L.Diff context old_layer).cursor = context.cursor ∧
    (∀ (S : MockLayer SkPath SkPaint SkMatrix MutatorsStack)
        (old_sibling : Option (Layer SkPath SkPaint SkMatrix MutatorsStack)),
      (S.Diff (L.Diff context old_layer) old_sibling).this_frame_paint_region S.unique_id_ =
          (S.Diff context old_sibling).this_frame_paint_region S.unique_id_ ∧
        (S.Diff (L.Diff context old_layer) old_sibling).this_frame_paint_region S.unique_id_ =
          some (context.to_active_space (SkPathApi.getBounds S.fake_paint_path_)).toList) := by
  obtain ⟨hstack, hcursor, hspace, -, -⟩ := Diff_fields L context old_layer
  refine ⟨hstack, by rw [hstack], hcursor, ?_⟩
  intro S old_sibling
  have h1 := (Diff_fields S (L.Diff context old_layer) old_sibling).2.2.2.2
  have h2 := (Diff_fields S context old_sibling).2.2.2.2
  rw [h1, h2, hspace]
  simp

/-- C7: `MockLayer::Diff` records the paint region of exactly one layer.  The
entry under the identity of this layer becomes the current subtree region of
the context after the subtree was begun and the path bounds were added
(`AddLayerBounds` then `SetLayerPaintRegion(this, CurrentSubtreeRegion())`),
which consists of the path bounds in the active space; the entry of every
other identity is unchanged; and the resulting context does not depend on
`old_layer`. -/
theorem Diff_records_own_paint_region [SkPathApi SkPath]
    (L : MockLayer SkPath SkPaint SkMatrix MutatorsStack) (context : DiffContext)
    (old_layer : Option (Layer SkPath SkPaint SkMatrix MutatorsStack)) :
    (L.Diff context old_layer).this_frame_paint_region L.unique_id_ =
      some (context.BeginSubtree.AddLayerBounds
        (SkPathApi.getBounds L.fake_paint_path_)).CurrentSubtreeRegion ∧
    (context.BeginSubtree.AddLayerBounds
        (SkPathApi.getBounds L.fake_paint_path_)).CurrentSubtreeRegion =
      (context.to_active_space (SkPathApi.getBounds L.fake_paint_path_)).toList ∧
    (∀ id : Nat, id ≠ L.unique_id_ →
      (L.Diff context old_layer).this_frame_paint_region id =
        context.this_frame_paint_region id) ∧
    (∀ other_old_layer : Option (Layer SkPath SkPaint SkMatrix MutatorsStack),
      L.Diff context other_old_layer = L.Diff context old_layer) := by
  have hregion : (context.BeginSubtree.AddLayerBounds
      (SkPathApi.getBounds L.fake_paint_path_)).CurrentSubtreeRegion =
      (context.to_active_space (SkPathApi.getBounds L.fake_paint_path_)).toList := by
    cases hmap : context.to_active_space (SkPathApi.getBounds L.fake_paint_path_) with
    | none =>
      simp [DiffContext.BeginSubtree, DiffContext.AddLayerBounds,
        DiffContext.CurrentSubtreeRegion, hmap]
    | some paint_rect =>
      simp [DiffContext.BeginSubtree, DiffContext.AddLayerBounds,
        DiffContext.CurrentSubtreeRegion, hmap]
  have hmapf := (Diff_fields L context old_layer).2.2.2.2
  refine ⟨?_, hregion, ?_, ?_⟩
  · rw [hmapf, hregion]
    simp
  · intro id hid
    rw [hmapf]
    simp [hid]
  · intro other_old_layer
    rfl

/-- C8: after `MockLayer::Preroll` the paint bounds of the layer are the
bounds of its draw path, whatever the context and the matrix were; the draw
path itself is not changed. -/
theorem Preroll_sets_paint_bounds [SkPathApi SkPath]
    (L : MockLayer SkPath SkPaint SkMatrix MutatorsStack)
    (context : PrerollContext MutatorsStack) (matrix : SkMatrix) :
    (L.Preroll context matrix).1.paint_bounds_ = SkPathApi.getBounds L.fake_paint_path_ ∧
    (L.Preroll context matrix).1.fake_paint_path_ = L.fake_paint_path_ := by
  exact ⟨rfl, rfl⟩

/-- Counterexample to C9: the sample layer declares a platform view, the
sample context has `has_platform_view = false` before the call, and after
`Preroll` returns the flag is `true`: the prior value is not restored. -/
theorem Preroll_does_not_restore_has_platform_view :
    sampleLayer.fake_has_platform_view_ = true ∧
    samplePrerollContext.has_platform_view = false ∧
    (sampleLayer.Preroll samplePrerollContext ()).2.has_platform_view = true ∧
    ¬ ((sampleLayer.Preroll samplePrerollContext ()).2.has_platform_view =
        samplePrerollContext.has_platform_view ∧
      (sampleLayer.Preroll samplePrerollContext ()).2.has_texture_layer =
        samplePrerollContext.has_texture_layer) := by
  refine ⟨rfl, rfl, rfl, ?_⟩
  rintro ⟨h, -⟩
  exact absurd h (by decide)

/-- C9, amended: `MockLayer::Preroll` saves the ambient flags
`has_platform_view` and `has_texture_layer` of the context in the members
`parent_has_platform_view_` and `parent_has_texture_layer_` before changing
them, and leaves the flags set to the fake flags of the layer when it returns;
so the flags have their prior values after the call exactly when those were
already equal to the fake flags of the layer. -/
theorem Preroll_saves_and_overwrites_ambient_flags [SkPathApi SkPath]
    (L : MockLayer SkPath SkPaint SkMatrix MutatorsStack)
    (context : PrerollContext MutatorsStack) (matrix : SkMatrix) :
    (L.Preroll context matrix).1.parent_has_platform_view_ = context.has_platform_view ∧
    (L.Preroll context matrix).1.parent_has_texture_layer_ = context.has_texture_layer ∧
    (L.Preroll context matrix).2.has_platform_view = L.fake_has_platform_view_ ∧
    (L.Preroll context matrix).2.has_texture_layer = L.fake_has_texture_layer_ ∧
    (((L.Preroll context matrix).2.has_platform_view = context.has_platform_view ∧
        (L.Preroll context matrix).2.has_texture_layer = context.has_texture_layer) ↔
      (L.fake_has_platform_view_ = context.has_platform_view ∧
        L.fake_has_texture_layer_ = context.has_texture_layer)) := by
  have hpv : (L.Preroll context matrix).2.has_platform_view = L.fake_has_platform_view_ := by
    unfold MockLayer.Preroll
    dsimp only [MockLayer.set_paint_bounds]
    split <;> split <;> rfl
  have htl : (L.Preroll context matrix).2.has_texture_layer = L.fake_has_texture_layer_ := by
    unfold MockLayer.Preroll
    dsimp only [MockLayer.set_paint_bounds]
    split <;> split <;> rfl
  refine ⟨rfl, rfl, hpv, htl, ?_⟩
  rw [hpv, htl]

/-- C10: on every call that `Paint` is made for, that is for a layer and a
paint context with `needs_painting(context)`, as the entry check
`FML_DCHECK(needs_painting(context))` asserts, `MockLayer::Paint` returns,
whether the check is compiled in or not, and has appended to the canvas
exactly the calls `saveLayer(path bounds, p)`, `drawPath(path, paint)`,
`restore` when the inherited opacity is below 1, where `p` is the default
paint after `setAlphaf(inherited opacity)` and its alpha is the inherited
opacity, and exactly `drawPath(path, paint)` when the inherited opacity is 1
or more.  In both cases the path is drawn exactly once and the save depth of
the canvas after the calls is the one before them, the one `saveLayer` being
followed by the one `restore`. -/
theorem Paint_emitted_calls [SkPathApi SkPath] [SkPaintApi SkPaint]
    (needs_painting : MockLayer SkPath SkPaint SkMatrix MutatorsStack →
      PaintContext SkPath SkPaint → Bool)
    (dcheck_is_on : Bool)
    (L : MockLayer SkPath SkPaint SkMatrix MutatorsStack)
    (context : PaintContext SkPath SkPaint)
    (hneeds : needs_painting L context = true) :
    ∃ emitted : List (CanvasCall SkPath SkPaint),
      L.Paint needs_painting dcheck_is_on context =
        some { context with
          leaf_nodes_canvas := context.leaf_nodes_canvas ++ emitted } ∧
      emitted =
        (if context.inherited_opacity < 1 then
          [CanvasCall.saveLayer (SkPathApi.getBounds L.fake_paint_path_)
              (SkPaintApi.setAlphaf SkPaintApi.defaultPaint context.inherited_opacity),
            CanvasCall.drawPath L.fake_paint_path_ L.fake_paint_,
            CanvasCall.restore]
        else [CanvasCall.drawPath L.fake_paint_path_ L.fake_paint_]) ∧
      (context.inherited_opacity < 1 →
        ∃ p : SkPaint,
          emitted =
            [CanvasCall.saveLayer (SkPathApi.getBounds L.fake_paint_path_) p,
              CanvasCall.drawPath L.fake_paint_path_ L.fake_paint_,
              CanvasCall.restore] ∧
          SkPaintApi.getAlphaf p = context.inherited_opacity) ∧
      (1 ≤ context.inherited_opacity →
        emitted = [CanvasCall.drawPath L.fake_paint_path_ L.fake_paint_]) ∧
      drawPathCount emitted = 1 ∧
      ∀ depth : Nat, saveDepthAfter depth emitted = depth := by
  refine ⟨_, ?_, rfl, ?_, ?_, ?_, ?_⟩
  · unfold MockLayer.Paint
    have hcond : (dcheck_is_on && !needs_painting L context) = false := by
      rw [hneeds]
      cases dcheck_is_on <;> rfl
    rw [hcond]
    by_cases hop : context.inherited_opacity < 1
    · simp [SK_Scalar1, hop]
    · simp [SK_Scalar1, hop]
  · intro hop
    refine ⟨SkPaintApi.setAlphaf SkPaintApi.defaultPaint context.inherited_opacity, ?_,
      SkPaintApi.getAlphaf_setAlphaf _ _⟩
    rw [if_pos hop]
  · intro hop
    rw [if_neg (not_lt.mpr hop)]
  · by_cases hop : context.inherited_opacity < 1
    · simp [hop, drawPathCount]
    · simp [hop, drawPathCount]
  · intro depth
    by_cases hop : context.inherited_opacity < 1
    · simp [hop, saveDepthAfter]
    · simp [hop, saveDepthAfter]

/-- Witness of C10 on the prerolled sample layer with half opacity and the
entry check compiled in: the layer needs painting, and `Paint` appends
`saveLayer` with the path bounds and a paint of alpha one half, `drawPath`
with the path and the red paint, and `restore`. -/
theorem Paint_emitted_calls_witness :
    sampleNeedsPainting samplePrerolledLayer samplePaintContext = true ∧
    samplePrerolledLayer.Paint sampleNeedsPainting true samplePaintContext =
      some { leaf_nodes_canvas :=
               [CanvasCall.saveLayer { fLeft := 0, fTop := 0, fRight := 5, fBottom := 5 }
                  { color := 0, alpha := 1 / 2 },
                CanvasCall.drawPath
                  { rect := { fLeft := 0, fTop := 0, fRight := 5, fBottom := 5 } }
                  { color := 16711680, alpha := 1 },
                CanvasCall.restore],
             inherited_opacity := 1 / 2 } := by
  have hneeds : sampleNeedsPainting samplePrerolledLayer samplePaintContext = true := by
    decide
  obtain ⟨emitted, hpaint, hemitted, -, -, -, -⟩ :=
    Paint_emitted_calls sampleNeedsPainting true samplePrerolledLayer samplePaintContext hneeds
  refine ⟨hneeds, ?_⟩
  rw [hpaint, hemitted]
  have hop : samplePaintContext.inherited_opacity < 1 := by
    simp only [samplePaintContext]
    norm_num
  rw [if_pos hop]
  rfl

end MockLayerProperties

end flutter

/-! ## Properties of `CapabilitiesVK` -/

namespace impeller

/-- Membership in a set after `insert`. -/
theorem mem_setInsert {α : Type} [DecidableEq α] (s : List α) (x y : α) :
    y ∈ setInsert s x ↔ y ∈ s ∨ y = x := by
  unfold setInsert
  by_cases h : x ∈ s
  · rw [if_pos h]
    constructor
    · exact Or.inl
    · rintro (hy | rfl)
      · exact hy
      · exact h
  · rw [if_neg h]
    simp

/-- Membership in a set built by successive `insert`s. -/
theorem mem_foldl_setInsert {α : Type} [DecidableEq α] (l s : List α) (y : α) :
    y ∈ l.foldl setInsert s ↔ y ∈ s ∨ y ∈ l := by
  induction l generalizing s with
  | nil => simp
  | cons x rest ih =>
    rw [List.foldl_cons, ih, mem_setInsert]
    simp only [List.mem_cons]
    tauto

/-- The keys of the map after `exts_[key].insert(ext)`. -/
theorem mapInsert_any_key (m : List (String × List String)) (key ext name : String) :
    (mapInsert m key ext).any (fun entry => decide (entry.1 = name)) =
      (m.any (fun entry => decide (entry.1 = name)) || decide (key = name)) := by
  induction m with
  | nil => simp [mapInsert]
  | cons entry rest ih =>
    obtain ⟨k, s⟩ := entry
    unfold mapInsert
    by_cases hk : k = key
    · subst hk
      simp only [if_true, List.any_cons]
      cases h1 : decide (k = name) <;> simp
    · rw [if_neg hk, List.any_cons, ih, List.any_cons, Bool.or_assoc]

/-- The extensions found in the map after `exts_[key].insert(ext)`. -/
theorem mapInsert_any_ext (m : List (String × List String)) (key ext name : String) :
    (mapInsert m key ext).any (fun entry => decide (name ∈ entry.2)) =
      (m.any (fun entry => decide (name ∈ entry.2)) || decide (name = ext)) := by
  induction m with
  | nil => simp [mapInsert]
  | cons entry rest ih =>
    obtain ⟨k, s⟩ := entry
    unfold mapInsert
    by_cases hk : k = key
    · rw [if_pos hk]
      simp only [List.any_cons]
      have hs : decide (name ∈ setInsert s ext) = (decide (name ∈ s) || decide (name = ext)) := by
        rw [Bool.eq_iff_iff]
        simp [mem_setInsert]
      rw [hs]
      cases decide (name ∈ s) <;> cases decide (name = ext) <;> simp
    · rw [if_neg hk, List.any_cons, ih, List.any_cons, Bool.or_assoc]

/-- The keys of the map after the extensions of one layer were inserted: the
layer gets an entry only when it has at least one extension. -/
theorem insertExtensions_any_key (exts : List String) (m : List (String × List String))
    (layer_name name : String) :
    (insertExtensions m layer_name exts).any (fun entry => decide (entry.1 = name)) =
      (m.any (fun entry => decide (entry.1 = name)) ||
        (decide (layer_name = name) && !exts.isEmpty)) := by
  induction exts generalizing m with
  | nil => simp [insertExtensions]
  | cons ext rest ih =>
    unfold insertExtensions
    rw [ih, mapInsert_any_key]
    cases m.any (fun entry => decide (entry.1 = name)) <;>
      cases decide (layer_name = name) <;> cases rest.isEmpty <;> simp

/-- The extensions found in the map after the extensions of one layer were
inserted. -/
theorem insertExtensions_any_ext (exts : List String) (m : List (String × List String))
    (layer_name name : String) :
    (insertExtensions m layer_name exts).any (fun entry => decide (name ∈ entry.2)) =
      (m.any (fun entry => decide (name ∈ entry.2)) || decide (name ∈ exts)) := by
  induction exts generalizing m with
  | nil => simp [insertExtensions]
  | cons ext rest ih =>
    unfold insertExtensions
    rw [ih, mapInsert_any_ext, Bool.or_assoc]
    congr 1
    rw [Bool.eq_iff_iff]
    simp

end impeller

namespace impeller

/-- The loop over the layers runs to its end exactly when the enumeration of
the extensions of every layer succeeds. -/
theorem insertLayers_fst (loader : vk.Loader) (layers : List String)
    (m : List (String × List String)) :
    (insertLayers loader m layers).1 = true ↔
      ∀ l ∈ layers,
        (loader.enumerateInstanceExtensionProperties (some l)).result = vk.Result.eSuccess := by
  induction layers generalizing m with
  | nil => simp [insertLayers]
  | cons layer_name rest ih =>
    unfold insertLayers
    by_cases h : (loader.enumerateInstanceExtensionProperties (some layer_name)).result =
        vk.Result.eSuccess
    · simp [h, ih]
    · simp [h]

/-- The keys of the map after the loop over the layers ran to its end. -/
theorem insertLayers_any_key (loader : vk.Loader) (layers : List String)
    (m : List (String × List String)) (name : String)
    (hok : (insertLayers loader m layers).1 = true) :
    (insertLayers loader m layers).2.any (fun entry => decide (entry.1 = name)) = true ↔
      (m.any (fun entry => decide (entry.1 = name)) = true ∨
        ∃ l ∈ layers, l = name ∧
          (loader.enumerateInstanceExtensionProperties (some l)).value ≠ []) := by
  induction layers generalizing m with
  | nil => simp [insertLayers]
  | cons layer_name rest ih =>
    unfold insertLayers at hok ⊢
    by_cases h : (loader.enumerateInstanceExtensionProperties (some layer_name)).result =
        vk.Result.eSuccess
    · simp only [h, ne_eq, not_true_eq_false, if_false] at hok ⊢
      rw [ih _ hok, insertExtensions_any_key]
      simp only [Bool.or_eq_true, Bool.and_eq_true, decide_eq_true_eq, Bool.not_eq_true',
        List.isEmpty_eq_false, List.mem_cons, exists_eq_or_imp, ne_eq]
      constructor
      · rintro ((h1 | ⟨h2, h3⟩) | h4)
        · exact Or.inl h1
        · exact Or.inr (Or.inl ⟨h2, h3⟩)
        · exact Or.inr (Or.inr h4)
      · rintro (h1 | ⟨h2, h3⟩ | h4)
        · exact Or.inl (Or.inl h1)
        · exact Or.inl (Or.inr ⟨h2, h3⟩)
        · exact Or.inr h4
    · simp [h] at hok

/-- Every extension found in the map after the loop over the layers, whether
it ran to its end or not, was in the map before or was enumerated for one of
the layers. -/
theorem insertLayers_any_ext_imp (loader : vk.Loader) (layers : List String)
    (m : List (String × List String)) (name : String)
    (hany : (insertLayers loader m layers).2.any (fun entry => decide (name ∈ entry.2)) = true) :
    m.any (fun entry => decide (name ∈ entry.2)) = true ∨
      ∃ l ∈ layers, name ∈ (loader.enumerateInstanceExtensionProperties (some l)).value := by
  induction layers generalizing m with
  | nil => exact Or.inl (by simpa [insertLayers] using hany)
  | cons layer_name rest ih =>
    unfold insertLayers at hany
    by_cases h : (loader.enumerateInstanceExtensionProperties (some layer_name)).result =
        vk.Result.eSuccess
    · simp only [h, ne_eq, not_true_eq_false, if_false] at hany
      rcases ih _ hany with h1 | ⟨l, hl, hmem⟩
      · rw [insertExtensions_any_ext, Bool.or_eq_true, decide_eq_true_eq] at h1
        rcases h1 with h1 | h1
        · exact Or.inl h1
        · exact Or.inr ⟨layer_name, List.mem_cons_self _ _, h1⟩
      · exact Or.inr ⟨l, List.mem_cons_of_mem _ hl, hmem⟩
    · simp only [h, ne_eq, not_false_eq_true, if_true] at hany
      exact Or.inl hany

/-- Every extension of the map before the loop and every extension enumerated
for a layer is found in the map after the loop ran to its end. -/
theorem insertLayers_any_ext_of_ok (loader : vk.Loader) (layers : List String)
    (m : List (String × List String)) (name : String)
    (hok : (insertLayers loader m layers).1 = true)
    (hfound : m.any (fun entry => decide (name ∈ entry.2)) = true ∨
      ∃ l ∈ layers, name ∈ (loader.enumerateInstanceExtensionProperties (some l)).value) :
    (insertLayers loader m layers).2.any (fun entry => decide (name ∈ entry.2)) = true := by
  induction layers generalizing m with
  | nil =>
    rcases hfound with h1 | ⟨l, hl, -⟩
    · simpa [insertLayers] using h1
    · simp at hl
  | cons layer_name rest ih =>
    unfold insertLayers at hok ⊢
    by_cases h : (loader.enumerateInstanceExtensionProperties (some layer_name)).result =
        vk.Result.eSuccess
    · simp only [h, ne_eq, not_true_eq_false, if_false] at hok ⊢
      apply ih _ hok
      rw [insertExtensions_any_ext, Bool.or_eq_true, decide_eq_true_eq]
      rcases hfound with h1 | ⟨l, hl, hmem⟩
      · exact Or.inl (Or.inl h1)
      · rcases List.mem_cons.mp hl with rfl | hl
        · exact Or.inl (Or.inr hmem)
        · exact Or.inr ⟨l, hl, hmem⟩
    · simp [h] at hok

/-- The constructor leaves a valid object exactly when the three kinds of
enumeration all succeed. -/
theorem construct_is_valid_iff (loader : vk.Loader) (enable_validations : Bool) :
    (CapabilitiesVK.construct loader enable_validations).is_valid_ = true ↔
      (loader.enumerateInstanceExtensionProperties none).result = vk.Result.eSuccess ∧
      loader.enumerateInstanceLayerProperties.result = vk.Result.eSuccess ∧
      ∀ l ∈ loader.enumerateInstanceLayerProperties.value,
        (loader.enumerateInstanceExtensionProperties (some l)).result = vk.Result.eSuccess := by
  unfold CapabilitiesVK.construct
  by_cases h1 : (loader.enumerateInstanceExtensionProperties none).result = vk.Result.eSuccess
  · by_cases h2 : loader.enumerateInstanceLayerProperties.result = vk.Result.eSuccess
    · simp only [h1, h2, ne_eq, not_true_eq_false, or_self, if_false, true_and]
      rw [← insertLayers_fst loader _
        (insertExtensions CapabilitiesVK.initial.exts_ kInstanceLayer
          (loader.enumerateInstanceExtensionProperties none).value)]
      cases hl : (insertLayers loader
        (insertExtensions CapabilitiesVK.initial.exts_ kInstanceLayer
          (loader.enumerateInstanceExtensionProperties none).value)
        loader.enumerateInstanceLayerProperties.value).1 <;> simp [CapabilitiesVK.initial]
    · simp [h1, h2, CapabilitiesVK.initial]
  · simp [h1, CapabilitiesVK.initial]

/-- The map of a valid object: the extensions of the instance under
`kInstanceLayer`, then those of the layers. -/
theorem construct_exts_of_valid (loader : vk.Loader) (enable_validations : Bool)
    (hvalid : (CapabilitiesVK.construct loader enable_validations).is_valid_ = true) :
    (insertLayers loader
        (insertExtensions [] kInstanceLayer
          (loader.enumerateInstanceExtensionProperties none).value)
        loader.enumerateInstanceLayerProperties.value).1 = true ∧
    (CapabilitiesVK.construct loader enable_validations).exts_ =
      (insertLayers loader
        (insertExtensions [] kInstanceLayer
          (loader.enumerateInstanceExtensionProperties none).value)
        loader.enumerateInstanceLayerProperties.value).2 := by
  obtain ⟨h1, h2, h3⟩ := (construct_is_valid_iff loader enable_validations).mp hvalid
  have hok := (insertLayers_fst loader loader.enumerateInstanceLayerProperties.value
    (insertExtensions [] kInstanceLayer
      (loader.enumerateInstanceExtensionProperties none).value)).mpr h3
  refine ⟨hok, ?_⟩
  unfold CapabilitiesVK.construct
  simp only [h1, h2, ne_eq, not_true_eq_false, or_self, if_false, CapabilitiesVK.initial]
  rw [hok]
  simp

end impeller

namespace impeller

/-- The layers a valid object reports: `kInstanceLayer` when the instance has
an extension, and each enumerated layer that has an extension. -/
theorem construct_HasLayer_iff (loader : vk.Loader) (enable_validations : Bool)
    (hvalid : (CapabilitiesVK.construct loader enable_validations).is_valid_ = true)
    (name : String) :
    (CapabilitiesVK.construct loader enable_validations).HasLayer name = true ↔
      ((name = kInstanceLayer ∧
          (loader.enumerateInstanceExtensionProperties none).value ≠ []) ∨
        ∃ l ∈ loader.enumerateInstanceLayerProperties.value, l = name ∧
          (loader.enumerateInstanceExtensionProperties (some l)).value ≠ []) := by
  obtain ⟨hok, hexts⟩ := construct_exts_of_valid loader enable_validations hvalid
  unfold CapabilitiesVK.HasLayer
  rw [hexts, insertLayers_any_key loader _ _ name hok, insertExtensions_any_key]
  simp only [List.any_nil, Bool.false_or, Bool.and_eq_true, decide_eq_true_eq,
    Bool.not_eq_true', List.isEmpty_eq_false, ne_eq]
  constructor
  · rintro (⟨h1, h2⟩ | h3)
    · exact Or.inl ⟨h1.symm, h2⟩
    · exact Or.inr h3
  · rintro (⟨h1, h2⟩ | h3)
    · exact Or.inl ⟨h1.symm, h2⟩
    · exact Or.inr h3

/-- Every extension a constructed object reports, valid or not, was
enumerated for the instance or for one of the enumerated layers. -/
theorem construct_HasExtension_imp (loader : vk.Loader) (enable_validations : Bool)
    (name : String)
    (hext : (CapabilitiesVK.construct loader enable_validations).HasExtension name = true) :
    name ∈ (loader.enumerateInstanceExtensionProperties none).value ∨
      ∃ l ∈ loader.enumerateInstanceLayerProperties.value,
        name ∈ (loader.enumerateInstanceExtensionProperties (some l)).value := by
  have hmap : (CapabilitiesVK.construct loader enable_validations).exts_ = [] ∨
      (CapabilitiesVK.construct loader enable_validations).exts_ =
        (insertLayers loader
          (insertExtensions [] kInstanceLayer
            (loader.enumerateInstanceExtensionProperties none).value)
          loader.enumerateInstanceLayerProperties.value).2 := by
    unfold CapabilitiesVK.construct
    by_cases h : (loader.enumerateInstanceExtensionProperties none).result ≠ vk.Result.eSuccess ∨
        loader.enumerateInstanceLayerProperties.result ≠ vk.Result.eSuccess
    · left
      simp only [h, if_true, CapabilitiesVK.initial]
    · right
      simp only [h, if_false, CapabilitiesVK.initial]
      split <;> rfl
  unfold CapabilitiesVK.HasExtension at hext
  rcases hmap with hmap | hmap
  · rw [hmap] at hext
    simp at hext
  · rw [hmap] at hext
    rcases insertLayers_any_ext_imp loader _ _ name hext with h1 | h2
    · rw [insertExtensions_any_ext] at h1
      simp only [List.any_nil, Bool.false_or, decide_eq_true_eq] at h1
      exact Or.inl h1
    · exact Or.inr h2

/-- A valid object reports exactly the extensions enumerated for the instance
or for one of the enumerated layers. -/
theorem construct_HasExtension_iff (loader : vk.Loader) (enable_validations : Bool)
    (hvalid : (CapabilitiesVK.construct loader enable_validations).is_valid_ = true)
    (name : String) :
    (CapabilitiesVK.construct loader enable_validations).HasExtension name = true ↔
      (name ∈ (loader.enumerateInstanceExtensionProperties none).value ∨
        ∃ l ∈ loader.enumerateInstanceLayerProperties.value,
          name ∈ (loader.enumerateInstanceExtensionProperties (some l)).value) := by
  refine ⟨construct_HasExtension_imp loader enable_validations name, ?_⟩
  intro hfound
  obtain ⟨hok, hexts⟩ := construct_exts_of_valid loader enable_validations hvalid
  unfold CapabilitiesVK.HasExtension
  rw [hexts]
  apply insertLayers_any_ext_of_ok loader _ _ name hok
  rcases hfound with h1 | h2
  · left
    rw [insertExtensions_any_ext]
    simp [h1]
  · exact Or.inr h2

/-- The validations are enabled on a constructed object exactly when the
object is valid, validations were requested and the validation layer is
reported by `HasLayer`. -/
theorem construct_validations_enabled_iff (loader : vk.Loader) (enable_validations : Bool) :
    (CapabilitiesVK.construct loader enable_validations).validations_enabled_ = true ↔
      ((CapabilitiesVK.construct loader enable_validations).is_valid_ = true ∧
        enable_validations = true ∧
        (CapabilitiesVK.construct loader enable_validations).HasLayer
          "VK_LAYER_KHRONOS_validation" = true) := by
  unfold CapabilitiesVK.construct
  by_cases h : (loader.enumerateInstanceExtensionProperties none).result ≠ vk.Result.eSuccess ∨
      loader.enumerateInstanceLayerProperties.result ≠ vk.Result.eSuccess
  · simp only [h, if_true, CapabilitiesVK.initial]
    simp
  · simp only [h, if_false]
    cases hl : (insertLayers loader
      (insertExtensions CapabilitiesVK.initial.exts_ kInstanceLayer
        (loader.enumerateInstanceExtensionProperties none).value)
      loader.enumerateInstanceLayerProperties.value).1
    · simp [CapabilitiesVK.initial]
    · simp [CapabilitiesVK.initial, CapabilitiesVK.HasLayer]

/-- The block repeated for each window-system extension appends the name and
sets the flag exactly when the extension is reported. -/
theorem pushIfHasExtension_eq (self : CapabilitiesVK) (name : String)
    (locals : List String × Bool) :
    self.pushIfHasExtension name locals =
      (locals.1 ++ (if self.HasExtension name then [name] else []),
        locals.2 || self.HasExtension name) := by
  unfold CapabilitiesVK.pushIfHasExtension
  cases self.HasExtension name <;> simp

end impeller

namespace impeller

/-- A conditional append of one name adds a sublist of that one name. -/
theorem ite_singleton_sublist (c : Bool) (name : String) :
    List.Sublist (if c = true then [name] else []) [name] := by
  cases c <;> simp

/-- C11: `GetEnabledInstanceExtensions` returns no result whenever
`HasExtension("VK_KHR_surface")` is false, and the first element of every list
it returns is `VK_KHR_surface`.  On a constructed object, it returns no result
whenever `VK_KHR_surface` was enumerated neither for the instance nor for any
enumerated layer. -/
theorem GetEnabledInstanceExtensions_requires_surface (self : CapabilitiesVK)
    (loader : vk.Loader) (enable_validations : Bool) :
    (self.HasExtension "VK_KHR_surface" = false → self.GetEnabledInstanceExtensions = none) ∧
    (∀ required, self.GetEnabledInstanceExtensions = some required →
      required.head? = some "VK_KHR_surface") ∧
    (("VK_KHR_surface" ∉ (loader.enumerateInstanceExtensionProperties none).value ∧
        ∀ l ∈ loader.enumerateInstanceLayerProperties.value,
          "VK_KHR_surface" ∉ (loader.enumerateInstanceExtensionProperties (some l)).value) →
      (CapabilitiesVK.construct loader enable_validations).GetEnabledInstanceExtensions =
        none) := by
  have hnone : ∀ c : CapabilitiesVK, c.HasExtension "VK_KHR_surface" = false →
      c.GetEnabledInstanceExtensions = none := by
    intro c hc
    unfold CapabilitiesVK.GetEnabledInstanceExtensions
    simp [hc]
  refine ⟨hnone self, ?_, ?_⟩
  · intro required hsome
    unfold CapabilitiesVK.GetEnabledInstanceExtensions at hsome
    simp only [pushIfHasExtension_eq] at hsome
    split at hsome
    · exact absurd hsome (by simp)
    · split at hsome
      · exact absurd hsome (by simp)
      · split at hsome
        · split at hsome
          · exact absurd hsome (by simp)
          · simp only [Option.some.injEq] at hsome
            subst hsome
            split <;> simp
        · simp only [Option.some.injEq] at hsome
          subst hsome
          simp
  · rintro ⟨hinst, hlayers⟩
    apply hnone
    cases hext : (CapabilitiesVK.construct loader enable_validations).HasExtension
        "VK_KHR_surface" with
    | false => rfl
    | true =>
      rcases construct_HasExtension_imp loader enable_validations _ hext with h1 | ⟨l, hl, h2⟩
      · exact absurd h1 hinst
      · exact absurd h2 (hlayers l hl)

/-- The evaluation for C12: on the loader whose instance advertises
`VK_KHR_surface` and `VK_KHR_portability_enumeration` only, none of the seven
window-system surface extensions is reported and yet
`GetEnabledInstanceExtensions` returns a list. -/
theorem GetEnabledInstanceExtensions_portability_counts_as_wsi :
    (CapabilitiesVK.construct portabilityLoader false).IsValid = true ∧
    (CapabilitiesVK.construct portabilityLoader false).HasExtension "VK_KHR_surface" = true ∧
    (∀ name ∈ ["VK_MVK_macos_surface", "VK_EXT_metal_surface", "VK_KHR_win32_surface",
        "VK_KHR_android_surface", "VK_KHR_xcb_surface", "VK_KHR_xlib_surface",
        "VK_KHR_wayland_surface"],
      (CapabilitiesVK.construct portabilityLoader false).HasExtension name = false) ∧
    (CapabilitiesVK.construct portabilityLoader false).GetEnabledInstanceExtensions =
      some ["VK_KHR_surface", "VK_KHR_portability_enumeration"] := by
  decide

/-- C14: `GetEnabledLayers` always returns a value, `[VK_LAYER_KHRONOS_validation]`
when `AreValidationsEnabled()` and the empty list otherwise.  On a constructed
object `AreValidationsEnabled()` holds only if validations were requested, the
three enumerations succeeded (the object is valid) and the validation layer
was found, that is reported by `HasLayer` and among the enumerated layers; so
`HasLayer` holds for every layer that `GetEnabledLayers` returns. -/
theorem GetEnabledLayers_checked_by_constructor (loader : vk.Loader)
    (enable_validations : Bool) :
    (∀ self : CapabilitiesVK,
      self.GetEnabledLayers =
        some (if self.AreValidationsEnabled = true then ["VK_LAYER_KHRONOS_validation"]
          else [])) ∧
    ((CapabilitiesVK.construct loader enable_validations).AreValidationsEnabled = true →
      enable_validations = true ∧
      (CapabilitiesVK.construct loader enable_validations).IsValid = true ∧
      ((loader.enumerateInstanceExtensionProperties none).result = vk.Result.eSuccess ∧
        loader.enumerateInstanceLayerProperties.result = vk.Result.eSuccess ∧
        ∀ l ∈ loader.enumerateInstanceLayerProperties.value,
          (loader.enumerateInstanceExtensionProperties (some l)).result =
            vk.Result.eSuccess) ∧
      (CapabilitiesVK.construct loader enable_validations).HasLayer
        "VK_LAYER_KHRONOS_validation" = true ∧
      "VK_LAYER_KHRONOS_validation" ∈ loader.enumerateInstanceLayerProperties.value) ∧
    (∀ layers,
      (CapabilitiesVK.construct loader enable_validations).GetEnabledLayers = some layers →
      ∀ layer ∈ layers,
        (CapabilitiesVK.construct loader enable_validations).HasLayer layer = true) := by
  have hget : ∀ self : CapabilitiesVK,
      self.GetEnabledLayers =
        some (if self.AreValidationsEnabled = true then ["VK_LAYER_KHRONOS_validation"]
          else []) := by
    intro self
    unfold CapabilitiesVK.GetEnabledLayers CapabilitiesVK.AreValidationsEnabled
    cases self.validations_enabled_ <;> simp
  refine ⟨hget, ?_, ?_⟩
  · intro hen
    obtain ⟨hvalid, hreq, hlayer⟩ :=
      (construct_validations_enabled_iff loader enable_validations).mp hen
    refine ⟨hreq, hvalid, (construct_is_valid_iff loader enable_validations).mp hvalid,
      hlayer, ?_⟩
    rcases (construct_HasLayer_iff loader enable_validations hvalid _).mp hlayer with
      ⟨h1, -⟩ | ⟨l, hl, h2, -⟩
    · exact absurd h1 (by decide)
    · rw [← h2]
      exact hl
  · intro layers hsome layer hmem
    rw [hget] at hsome
    simp only [Option.some.injEq] at hsome
    subst hsome
    by_cases hen : (CapabilitiesVK.construct loader enable_validations).AreValidationsEnabled
        = true
    · rw [if_pos hen] at hmem
      simp only [List.mem_singleton] at hmem
      subst hmem
      exact ((construct_validations_enabled_iff loader enable_validations).mp hen).2.2
    · rw [if_neg hen] at hmem
      simp at hmem

end impeller

namespace impeller

/-- Witness of C14 on the sample loader with validations requested: the
validations are enabled and the validation layer is the one enabled layer. -/
theorem GetEnabledLayers_checked_by_constructor_witness :
    (CapabilitiesVK.construct sampleLoader true).AreValidationsEnabled = true ∧
    (CapabilitiesVK.construct sampleLoader true).GetEnabledLayers =
      some ["VK_LAYER_KHRONOS_validation"] ∧
    (CapabilitiesVK.construct sampleLoader true).HasLayer "VK_LAYER_KHRONOS_validation" =
      true := by
  have hen : (CapabilitiesVK.construct sampleLoader true).AreValidationsEnabled = true := by
    decide
  have key := GetEnabledLayers_checked_by_constructor sampleLoader true
  refine ⟨hen, ?_, (key.2.1 hen).2.2.2.1⟩
  rw [key.1, if_pos hen]

/-- The repeated block, run over a list of names: the reported names are
appended in order and the flag is set when one of them is reported. -/
theorem pushIfHasExtension_foldl (self : CapabilitiesVK) (names : List String)
    (locals : List String × Bool) :
    names.foldl (fun locals name => self.pushIfHasExtension name locals) locals =
      (locals.1 ++ names.filter (fun name => self.HasExtension name),
        locals.2 || names.any (fun name => self.HasExtension name)) := by
  induction names generalizing locals with
  | nil => simp
  | cons name rest ih =>
    rw [List.foldl_cons, ih, pushIfHasExtension_eq]
    cases h : self.HasExtension name <;> simp [List.filter_cons, h]

/-- The result of `GetEnabledInstanceExtensions` in closed form. -/
theorem GetEnabledInstanceExtensions_eq (self : CapabilitiesVK) :
    self.GetEnabledInstanceExtensions =
      if self.HasExtension "VK_KHR_surface" = false then none
      else if ["VK_MVK_macos_surface", "VK_EXT_metal_surface",
          "VK_KHR_portability_enumeration", "VK_KHR_win32_surface", "VK_KHR_android_surface",
          "VK_KHR_xcb_surface", "VK_KHR_xlib_surface", "VK_KHR_wayland_surface"].any
            (fun name => self.HasExtension name) = false then none
      else if self.validations_enabled_ = true then
        if self.HasExtension "VK_EXT_debug_utils" = false then none
        else some (["VK_KHR_surface"] ++
          ["VK_MVK_macos_surface", "VK_EXT_metal_surface",
            "VK_KHR_portability_enumeration", "VK_KHR_win32_surface",
            "VK_KHR_android_surface", "VK_KHR_xcb_surface", "VK_KHR_xlib_surface",
            "VK_KHR_wayland_surface"].filter (fun name => self.HasExtension name) ++
          ["VK_EXT_debug_utils"] ++
          ["VK_EXT_validation_features"].filter (fun name => self.HasExtension name))
      else some (["VK_KHR_surface"] ++
          ["VK_MVK_macos_surface", "VK_EXT_metal_surface",
            "VK_KHR_portability_enumeration", "VK_KHR_win32_surface",
            "VK_KHR_android_surface", "VK_KHR_xcb_surface", "VK_KHR_xlib_surface",
            "VK_KHR_wayland_surface"].filter (fun name => self.HasExtension name)) := by
  have hchain := pushIfHasExtension_foldl self
    ["VK_MVK_macos_surface", "VK_EXT_metal_surface",
      "VK_KHR_portability_enumeration", "VK_KHR_win32_surface", "VK_KHR_android_surface",
      "VK_KHR_xcb_surface", "VK_KHR_xlib_surface", "VK_KHR_wayland_surface"]
    ([] ++ ["VK_KHR_surface"], false)
  simp only [List.foldl_cons, List.foldl_nil] at hchain
  unfold CapabilitiesVK.GetEnabledInstanceExtensions
  simp only [hchain]
  cases hs : self.HasExtension "VK_KHR_surface"
  · simp
  · cases hw : ["VK_MVK_macos_surface", "VK_EXT_metal_surface",
          "VK_KHR_portability_enumeration", "VK_KHR_win32_surface", "VK_KHR_android_surface",
          "VK_KHR_xcb_surface", "VK_KHR_xlib_surface", "VK_KHR_wayland_surface"].any
            (fun name => self.HasExtension name)
    · simp
    · cases hv : self.validations_enabled_
      · simp
      · cases hd : self.HasExtension "VK_EXT_debug_utils"
        · simp
        · cases hf : self.HasExtension "VK_EXT_validation_features" <;>
            simp [List.filter_cons, hf]

end impeller

namespace impeller

/-- C17: whenever `GetEnabledInstanceExtensions` returns a list, `HasExtension`
holds for every name in it, so that on a constructed object every name was
enumerated for the instance or for an enumerated layer, and no name occurs
twice; when validations are enabled the list contains `VK_EXT_debug_utils`
(there is no result when that extension is unavailable), and it contains
`VK_EXT_validation_features` exactly when `HasExtension` holds for that
name; when validations are not enabled the list contains neither of the
two. -/
theorem GetEnabledInstanceExtensions_listed_are_available (self : CapabilitiesVK)
    (required : List String)
    (hsome : self.GetEnabledInstanceExtensions = some required) :
    (∀ name ∈ required, self.HasExtension name = true) ∧
    (∀ (loader : vk.Loader) (enable_validations : Bool),
      self = CapabilitiesVK.construct loader enable_validations →
      ∀ name ∈ required,
        name ∈ (loader.enumerateInstanceExtensionProperties none).value ∨
          ∃ l ∈ loader.enumerateInstanceLayerProperties.value,
            name ∈ (loader.enumerateInstanceExtensionProperties (some l)).value) ∧
    required.Nodup ∧
    (self.AreValidationsEnabled = true →
      self.HasExtension "VK_EXT_debug_utils" = true ∧
      "VK_EXT_debug_utils" ∈ required ∧
      ("VK_EXT_validation_features" ∈ required ↔
        self.HasExtension "VK_EXT_validation_features" = true)) ∧
    (self.AreValidationsEnabled = false →
      "VK_EXT_debug_utils" ∉ required ∧ "VK_EXT_validation_features" ∉ required) := by
  have hall : ["VK_KHR_surface", "VK_MVK_macos_surface", "VK_EXT_metal_surface",
      "VK_KHR_portability_enumeration", "VK_KHR_win32_surface", "VK_KHR_android_surface",
      "VK_KHR_xcb_surface", "VK_KHR_xlib_surface", "VK_KHR_wayland_surface",
      "VK_EXT_debug_utils", "VK_EXT_validation_features"].Nodup := by decide
  have hnotwsi : "VK_EXT_validation_features" ∉ ["VK_MVK_macos_surface", "VK_EXT_metal_surface",
      "VK_KHR_portability_enumeration", "VK_KHR_win32_surface", "VK_KHR_android_surface",
      "VK_KHR_xcb_surface", "VK_KHR_xlib_surface", "VK_KHR_wayland_surface"] := by decide
  have hmem : ∀ name ∈ required, self.HasExtension name = true := by
    intro name hname
    rw [GetEnabledInstanceExtensions_eq] at hsome
    split at hsome
    · exact absurd hsome (by simp)
    · rename_i hsurface
      simp only [Bool.not_eq_false] at hsurface
      split at hsome
      · exact absurd hsome (by simp)
      · split at hsome
        · split at hsome
          · exact absurd hsome (by simp)
          · rename_i hdebug
            simp only [Bool.not_eq_false] at hdebug
            simp only [Option.some.injEq] at hsome
            subst hsome
            simp only [List.mem_append, List.mem_singleton, List.mem_filter] at hname
            rcases hname with ((h | h) | h) | h
            · rw [h]; exact hsurface
            · exact h.2
            · rw [h]; exact hdebug
            · exact h.2
        · simp only [Option.some.injEq] at hsome
          subst hsome
          simp only [List.mem_append, List.mem_singleton, List.mem_filter] at hname
          rcases hname with h | h
          · rw [h]; exact hsurface
          · exact h.2
  have hnotwsi2 : "VK_EXT_debug_utils" ∉ ["VK_MVK_macos_surface", "VK_EXT_metal_surface",
      "VK_KHR_portability_enumeration", "VK_KHR_win32_surface", "VK_KHR_android_surface",
      "VK_KHR_xcb_surface", "VK_KHR_xlib_surface", "VK_KHR_wayland_surface"] := by decide
  refine ⟨hmem, ?_, ?_, ?_, ?_⟩
  rotate_right
  · intro hval
    unfold CapabilitiesVK.AreValidationsEnabled at hval
    rw [GetEnabledInstanceExtensions_eq] at hsome
    split at hsome
    · exact absurd hsome (by simp)
    · split at hsome
      · exact absurd hsome (by simp)
      · rw [if_neg (by simp [hval])] at hsome
        simp only [Option.some.injEq] at hsome
        subst hsome
        constructor
        · intro hin
          simp only [List.mem_append, List.mem_singleton, List.mem_filter] at hin
          rcases hin with h | h
          · exact absurd h (by decide)
          · exact absurd h.1 hnotwsi2
        · intro hin
          simp only [List.mem_append, List.mem_singleton, List.mem_filter] at hin
          rcases hin with h | h
          · exact absurd h (by decide)
          · exact absurd h.1 hnotwsi
  · intro loader enable_validations hself name hname
    have h := hmem name hname
    rw [hself] at h
    exact construct_HasExtension_imp loader enable_validations name h
  · rw [GetEnabledInstanceExtensions_eq] at hsome
    split at hsome
    · exact absurd hsome (by simp)
    · split at hsome
      · exact absurd hsome (by simp)
      · split at hsome
        · split at hsome
          · exact absurd hsome (by simp)
          · simp only [Option.some.injEq] at hsome
            subst hsome
            refine List.Nodup.sublist ?_ hall
            exact List.Sublist.append
              (List.Sublist.append
                (List.Sublist.append (List.Sublist.refl _) (List.filter_sublist _))
                (List.Sublist.refl _))
              (List.filter_sublist _)
        · simp only [Option.some.injEq] at hsome
          subst hsome
          refine List.Nodup.sublist ?_ hall
          exact List.Sublist.trans
            (List.Sublist.append (List.Sublist.refl _) (List.filter_sublist _))
            (List.sublist_append_left _ ["VK_EXT_debug_utils", "VK_EXT_validation_features"])
  · intro hval
    unfold CapabilitiesVK.AreValidationsEnabled at hval
    rw [GetEnabledInstanceExtensions_eq] at hsome
    split at hsome
    · exact absurd hsome (by simp)
    · split at hsome
      · exact absurd hsome (by simp)
      · split at hsome
        · exact absurd hsome (by simp)
        · rename_i hdebug
          simp only [Bool.not_eq_false] at hdebug
          simp only [Option.some.injEq] at hsome
          subst hsome
          refine ⟨hdebug, by simp, ?_⟩
          constructor
          · intro hvf
            simp only [List.mem_append, List.mem_singleton, List.mem_filter] at hvf
            rcases hvf with ((h | h) | h) | h
            · exact absurd h (by decide)
            · exact absurd h.1 hnotwsi
            · exact absurd h (by decide)
            · exact h.2
          · intro hvf
            simp [List.filter_cons, hvf]

/-- Witness of C17 on the sample loader with validations requested. -/
theorem GetEnabledInstanceExtensions_listed_are_available_witness :
    (CapabilitiesVK.construct sampleLoader true).GetEnabledInstanceExtensions =
        some ["VK_KHR_surface", "VK_KHR_xcb_surface", "VK_EXT_debug_utils",
          "VK_EXT_validation_features"] ∧
      (∀ name ∈ ["VK_KHR_surface", "VK_KHR_xcb_surface", "VK_EXT_debug_utils",
          "VK_EXT_validation_features"],
        (CapabilitiesVK.construct sampleLoader true).HasExtension name = true) ∧
      ["VK_KHR_surface", "VK_KHR_xcb_surface", "VK_EXT_debug_utils",
        "VK_EXT_validation_features"].Nodup :=
  ⟨by decide,
    (GetEnabledInstanceExtensions_listed_are_available
      (CapabilitiesVK.construct sampleLoader true) _ (by decide)).1,
    (GetEnabledInstanceExtensions_listed_are_available
      (CapabilitiesVK.construct sampleLoader true) _ (by decide)).2.2.1⟩

end impeller

namespace impeller

/-- Counterexample to C18: on the sample loader the constructed object is
valid and `HasLayer` reports `ImpellerInstance`, the key under which the
constructor files the extensions of the instance, although the loader did not
enumerate a layer of that name. -/
theorem HasLayer_reports_instance_pseudo_layer :
    (CapabilitiesVK.construct sampleLoader false).IsValid = true ∧
    "ImpellerInstance" ∉ sampleLoader.enumerateInstanceLayerProperties.value ∧
    (CapabilitiesVK.construct sampleLoader false).HasLayer "ImpellerInstance" = true ∧
    ¬ ((CapabilitiesVK.construct sampleLoader false).HasLayer "ImpellerInstance" = true ↔
      "ImpellerInstance" ∈ sampleLoader.enumerateInstanceLayerProperties.value) := by
  decide

/-- An evaluation beside C18: on the sample loader `HasLayer` does not find
the enumerated layer that advertises no extension, because the constructor
creates the entry of a layer only when it inserts an extension for it. -/
theorem HasLayer_misses_layer_without_extensions :
    (CapabilitiesVK.construct sampleLoader false).IsValid = true ∧
    "VK_LAYER_LUNARG_monitor" ∈ sampleLoader.enumerateInstanceLayerProperties.value ∧
    (sampleLoader.enumerateInstanceExtensionProperties
      (some "VK_LAYER_LUNARG_monitor")).value = [] ∧
    (CapabilitiesVK.construct sampleLoader false).HasLayer "VK_LAYER_LUNARG_monitor" =
      false := by
  decide

/-- C18, amended: on a valid object `HasLayer` is true for every enumerated
layer that advertises at least one instance extension, and true for
`ImpellerInstance` whenever the instance itself advertises at least one
extension, whether or not the loader enumerated a layer of that name; and a
name for which `HasLayer` is true is `ImpellerInstance` or one of the
enumerated layers. -/
theorem HasLayer_of_valid (loader : vk.Loader) (enable_validations : Bool)
    (hvalid : (CapabilitiesVK.construct loader enable_validations).IsValid = true) :
    (∀ name ∈ loader.enumerateInstanceLayerProperties.value,
      (loader.enumerateInstanceExtensionProperties (some name)).value ≠ [] →
        (CapabilitiesVK.construct loader enable_validations).HasLayer name = true) ∧
    ((loader.enumerateInstanceExtensionProperties none).value ≠ [] →
      (CapabilitiesVK.construct loader enable_validations).HasLayer "ImpellerInstance" =
        true) ∧
    (∀ name, (CapabilitiesVK.construct loader enable_validations).HasLayer name = true →
      name = "ImpellerInstance" ∨ name ∈ loader.enumerateInstanceLayerProperties.value) := by
  have hiff := construct_HasLayer_iff loader enable_validations hvalid
  refine ⟨?_, ?_, ?_⟩
  · intro name hname hexts
    exact (hiff name).mpr (Or.inr ⟨name, hname, rfl, hexts⟩)
  · intro hinst
    exact (hiff "ImpellerInstance").mpr (Or.inl ⟨rfl, hinst⟩)
  · intro name hlayer
    rcases (hiff name).mp hlayer with ⟨h1, -⟩ | ⟨l, hl, h2, -⟩
    · exact Or.inl h1
    · rw [← h2]
      exact Or.inr hl

/-- Witness of the amended C18 on the sample loader: the validation layer,
which advertises extensions, is found. -/
theorem HasLayer_of_valid_witness :
    (CapabilitiesVK.construct sampleLoader true).IsValid = true ∧
    (CapabilitiesVK.construct sampleLoader true).HasLayer "VK_LAYER_KHRONOS_validation" =
      true ∧
    (CapabilitiesVK.construct sampleLoader true).HasLayer "ImpellerInstance" = true :=
  ⟨by decide,
    (HasLayer_of_valid sampleLoader true (by decide)).1 "VK_LAYER_KHRONOS_validation"
      (by decide) (by decide),
    (HasLayer_of_valid sampleLoader true (by decide)).2.1 (by decide)⟩

/-- The set of supported device extensions has the enumerated names as
members. -/
theorem mem_GetSupportedDeviceExtensions (physical_device : vk.PhysicalDevice)
    (exts : List String) (h : GetSupportedDeviceExtensions physical_device = some exts)
    (name : String) :
    name ∈ exts ↔ name ∈ physical_device.enumerateDeviceExtensionProperties.value := by
  unfold GetSupportedDeviceExtensions at h
  dsimp only at h
  split at h
  · exact absurd h (by simp)
  · simp only [Option.some.injEq] at h
    subst h
    rw [mem_foldl_setInsert]
    simp

/-- The loop of `IterateExtensions` with a callback that requires each name:
it runs to its end exactly when every name is supported, and has then
appended all the names in order. -/
theorem iterateIndices_required {T : Type} [ExtensionEnum T] (f : T → String)
    (exts : List String) (idxs : List Nat) (s : List String) :
    ((iterateIndices
        (fun (ext : T) (enabled : List String) =>
          if f ext ∉ exts then (false, enabled) else (true, enabled ++ [f ext])) idxs s).1 = true ↔
      ∀ i ∈ idxs, f (ExtensionEnum.ofIndex i) ∈ exts) ∧
    ((iterateIndices
        (fun (ext : T) (enabled : List String) =>
          if f ext ∉ exts then (false, enabled) else (true, enabled ++ [f ext])) idxs s).1 = true →
      (iterateIndices
        (fun (ext : T) (enabled : List String) =>
          if f ext ∉ exts then (false, enabled) else (true, enabled ++ [f ext])) idxs s).2 =
        s ++ idxs.map (fun i => f (ExtensionEnum.ofIndex i))) := by
  induction idxs generalizing s with
  | nil => simp [iterateIndices]
  | cons i rest ih =>
    unfold iterateIndices
    by_cases h : f (ExtensionEnum.ofIndex i : T) ∈ exts
    · simp only [h, not_true_eq_false, if_false, Bool.true_eq_false, List.mem_cons,
        forall_eq_or_imp, true_and, List.map_cons]
      refine ⟨(ih _).1, ?_⟩
      intro hok
      rw [(ih _).2 hok]
      simp
    · simp [h]

/-- The loop of `IterateExtensions` with a callback that appends the names
that are supported and never stops. -/
theorem iterateIndices_optional {T : Type} [ExtensionEnum T] (f : T → String)
    (exts : List String) (idxs : List Nat) (s : List String) :
    iterateIndices
        (fun (ext : T) (enabled : List String) =>
          if f ext ∈ exts then (true, enabled ++ [f ext]) else (true, enabled)) idxs s =
      (true, s ++ (idxs.map (fun i => f (ExtensionEnum.ofIndex i))).filter
        (fun name => decide (name ∈ exts))) := by
  induction idxs generalizing s with
  | nil => simp [iterateIndices]
  | cons i rest ih =>
    unfold iterateIndices
    by_cases h : f (ExtensionEnum.ofIndex i : T) ∈ exts
    · simp [h, ih, List.filter_cons]
    · simp [h, ih, List.filter_cons]

/-- The loop of `IterateExtensions` with a callback that does nothing. -/
theorem iterateIndices_skip {T σ : Type} [ExtensionEnum T] (idxs : List Nat) (s : σ) :
    iterateIndices (fun (_ : T) (enabled : σ) => (true, enabled)) idxs s = (true, s) := by
  induction idxs generalizing s with
  | nil => simp [iterateIndices]
  | cons i rest ih =>
    unfold iterateIndices
    simp [ih]

end impeller

namespace impeller

/-- The template `IterateExtensions` with a callback that requires each name,
when every name is supported. -/
theorem IterateExtensions_required_ok {T : Type} [ExtensionEnum T] (f : T → String)
    (exts s names : List String)
    (hnames : (List.range (ExtensionEnum.kLastIndex T)).map
      (fun i => f (ExtensionEnum.ofIndex i)) = names)
    (hall : ∀ name ∈ names, name ∈ exts) :
    IterateExtensions
        (some (fun (ext : T) (enabled : List String) =>
          if f ext ∉ exts then (false, enabled) else (true, enabled ++ [f ext]))) s =
      (true, s ++ names) := by
  have h := iterateIndices_required f exts (List.range (ExtensionEnum.kLastIndex T)) s
  have hok := h.1.mpr (by
    intro i hi
    apply hall
    rw [← hnames]
    exact List.mem_map_of_mem _ hi)
  unfold IterateExtensions
  apply Prod.ext
  · exact hok
  · rw [h.2 hok, hnames]

/-- The template `IterateExtensions` with a callback that requires each name,
when some name is not supported. -/
theorem IterateExtensions_required_fail {T : Type} [ExtensionEnum T] (f : T → String)
    (exts s names : List String)
    (hnames : (List.range (ExtensionEnum.kLastIndex T)).map
      (fun i => f (ExtensionEnum.ofIndex i)) = names)
    (hsome : ¬ ∀ name ∈ names, name ∈ exts) :
    (IterateExtensions
        (some (fun (ext : T) (enabled : List String) =>
          if f ext ∉ exts then (false, enabled) else (true, enabled ++ [f ext]))) s).1 =
      false := by
  have h := iterateIndices_required f exts (List.range (ExtensionEnum.kLastIndex T)) s
  unfold IterateExtensions
  cases hc : (iterateIndices
      (fun (ext : T) (enabled : List String) =>
        if f ext ∉ exts then (false, enabled) else (true, enabled ++ [f ext]))
      (List.range (ExtensionEnum.kLastIndex T)) s).1 with
  | false => rfl
  | true =>
    exfalso
    apply hsome
    intro name hname
    rw [← hnames] at hname
    obtain ⟨i, hi, rfl⟩ := List.mem_map.mp hname
    exact h.1.mp hc i hi

/-- The template `IterateExtensions` with a callback that appends the
supported names. -/
theorem IterateExtensions_optional {T : Type} [ExtensionEnum T] (f : T → String)
    (exts s names : List String)
    (hnames : (List.range (ExtensionEnum.kLastIndex T)).map
      (fun i => f (ExtensionEnum.ofIndex i)) = names) :
    IterateExtensions
        (some (fun (ext : T) (enabled : List String) =>
          if f ext ∈ exts then (true, enabled ++ [f ext]) else (true, enabled))) s =
      (true, s ++ names.filter (fun name => decide (name ∈ exts))) := by
  unfold IterateExtensions
  dsimp only
  rw [iterateIndices_optional, hnames]

/-- The result of `GetEnabledDeviceExtensions` in terms of the set of
supported extensions. -/
theorem GetEnabledDeviceExtensions_eq (is_android : Bool)
    (physical_device : vk.PhysicalDevice) (exts : List String)
    (hsup : GetSupportedDeviceExtensions physical_device = some exts) :
    CapabilitiesVK.GetEnabledDeviceExtensions is_android physical_device =
      if ∀ name ∈ ["VK_KHR_swapchain"] ++
          (if is_android = true then
            ["VK_ANDROID_external_memory_android_hardware_buffer",
              "VK_KHR_sampler_ycbcr_conversion", "VK_KHR_external_memory",
              "VK_EXT_queue_family_foreign", "VK_KHR_dedicated_allocation"]
          else []), name ∈ exts then
        some (["VK_KHR_swapchain"] ++
          (if is_android = true then
            ["VK_ANDROID_external_memory_android_hardware_buffer",
              "VK_KHR_sampler_ycbcr_conversion", "VK_KHR_external_memory",
              "VK_EXT_queue_family_foreign", "VK_KHR_dedicated_allocation"]
          else []) ++
          ["VK_EXT_pipeline_creation_feedback", "VK_KHR_portability_subset"].filter
            (fun name => decide (name ∈ exts)))
      else none := by
  unfold CapabilitiesVK.GetEnabledDeviceExtensions
  rw [hsup]
  dsimp only
  have hoptional := fun s => IterateExtensions_optional (T := OptionalDeviceExtensionVK)
    OptionalDeviceExtensionVK.GetExtensionName exts s
    ["VK_EXT_pipeline_creation_feedback", "VK_KHR_portability_subset"] rfl
  by_cases h1 : ∀ name ∈ ["VK_KHR_swapchain"], name ∈ exts
  · have hcommon := IterateExtensions_required_ok (T := RequiredCommonDeviceExtensionVK)
      RequiredCommonDeviceExtensionVK.GetExtensionName exts [] ["VK_KHR_swapchain"] rfl h1
    simp only [hcommon, if_true]
    cases is_android with
    | false =>
      have hskip : IterateExtensions
          (some (fun (_ : RequiredAndroidDeviceExtensionVK) (enabled : List String) =>
            (true, enabled))) ([] ++ ["VK_KHR_swapchain"]) =
          (true, [] ++ ["VK_KHR_swapchain"]) := by
        unfold IterateExtensions
        exact iterateIndices_skip _ _
      simp only [Bool.false_eq_true, if_false, hskip, if_true, hoptional]
      simp at h1
      simp [h1]
    | true =>
      simp only [if_true]
      by_cases h5 : ∀ name ∈ ["VK_ANDROID_external_memory_android_hardware_buffer",
          "VK_KHR_sampler_ycbcr_conversion", "VK_KHR_external_memory",
          "VK_EXT_queue_family_foreign", "VK_KHR_dedicated_allocation"], name ∈ exts
      · have handroid := IterateExtensions_required_ok (T := RequiredAndroidDeviceExtensionVK)
          RequiredAndroidDeviceExtensionVK.GetExtensionName exts ([] ++ ["VK_KHR_swapchain"])
          ["VK_ANDROID_external_memory_android_hardware_buffer",
            "VK_KHR_sampler_ycbcr_conversion", "VK_KHR_external_memory",
            "VK_EXT_queue_family_foreign", "VK_KHR_dedicated_allocation"] rfl h5
        simp only [handroid, if_true, hoptional]
        have hall : ∀ name ∈ ["VK_KHR_swapchain"] ++
            ["VK_ANDROID_external_memory_android_hardware_buffer",
              "VK_KHR_sampler_ycbcr_conversion", "VK_KHR_external_memory",
              "VK_EXT_queue_family_foreign", "VK_KHR_dedicated_allocation"], name ∈ exts := by
          intro name hname
          rcases List.mem_append.mp hname with h | h
          · exact h1 name h
          · exact h5 name h
        rw [if_pos hall]
        simp
      · have handroid := IterateExtensions_required_fail (T := RequiredAndroidDeviceExtensionVK)
          RequiredAndroidDeviceExtensionVK.GetExtensionName exts ([] ++ ["VK_KHR_swapchain"])
          ["VK_ANDROID_external_memory_android_hardware_buffer",
            "VK_KHR_sampler_ycbcr_conversion", "VK_KHR_external_memory",
            "VK_EXT_queue_family_foreign", "VK_KHR_dedicated_allocation"] rfl h5
        simp only [handroid, Bool.false_eq_true, if_false, Bool.not_false, if_true]
        rw [if_neg]
        intro hall
        exact h5 (fun name hname => hall name (List.mem_append_right _ hname))
  · have hcommon := IterateExtensions_required_fail (T := RequiredCommonDeviceExtensionVK)
      RequiredCommonDeviceExtensionVK.GetExtensionName exts [] ["VK_KHR_swapchain"] rfl h1
    simp only [hcommon, Bool.false_eq_true, if_false, Bool.not_false, if_true]
    rw [if_neg]
    intro hall
    exact h1 (fun name hname => hall name (List.mem_append_left _ hname))

end impeller

namespace impeller

/-- C13: `GetEnabledDeviceExtensions` returns a list if and only if the
enumeration of the device extensions succeeds and every required extension is
among them (`VK_KHR_swapchain`, and on an Android build the five Android
extensions); the list is then the required names in the order of the
enumerations followed by those of `VK_EXT_pipeline_creation_feedback` and
`VK_KHR_portability_subset` that the device supports, and every listed name
is supported by the device. -/
theorem GetEnabledDeviceExtensions_iff_required_supported (is_android : Bool)
    (physical_device : vk.PhysicalDevice) :
    ((CapabilitiesVK.GetEnabledDeviceExtensions is_android physical_device).isSome = true ↔
      (physical_device.enumerateDeviceExtensionProperties.result = vk.Result.eSuccess ∧
        ∀ name ∈ ["VK_KHR_swapchain"] ++
            (if is_android = true then
              ["VK_ANDROID_external_memory_android_hardware_buffer",
                "VK_KHR_sampler_ycbcr_conversion", "VK_KHR_external_memory",
                "VK_EXT_queue_family_foreign", "VK_KHR_dedicated_allocation"]
            else []),
          name ∈ physical_device.enumerateDeviceExtensionProperties.value)) ∧
    (∀ enabled, CapabilitiesVK.GetEnabledDeviceExtensions is_android physical_device =
        some enabled →
      enabled =
        ["VK_KHR_swapchain"] ++
          (if is_android = true then
            ["VK_ANDROID_external_memory_android_hardware_buffer",
              "VK_KHR_sampler_ycbcr_conversion", "VK_KHR_external_memory",
              "VK_EXT_queue_family_foreign", "VK_KHR_dedicated_allocation"]
          else []) ++
          ["VK_EXT_pipeline_creation_feedback", "VK_KHR_portability_subset"].filter
            (fun name =>
              decide (name ∈ physical_device.enumerateDeviceExtensionProperties.value)) ∧
      ∀ name ∈ enabled,
        name ∈ physical_device.enumerateDeviceExtensionProperties.value) := by
  cases hsup : GetSupportedDeviceExtensions physical_device with
  | none =>
    have hres : physical_device.enumerateDeviceExtensionProperties.result ≠
        vk.Result.eSuccess := by
      intro hres
      unfold GetSupportedDeviceExtensions at hsup
      simp [hres] at hsup
    have hnone : CapabilitiesVK.GetEnabledDeviceExtensions is_android physical_device =
        none := by
      unfold CapabilitiesVK.GetEnabledDeviceExtensions
      rw [hsup]
    rw [hnone]
    simp [hres]
  | some exts =>
    have hres : physical_device.enumerateDeviceExtensionProperties.result =
        vk.Result.eSuccess := by
      by_contra hres
      unfold GetSupportedDeviceExtensions at hsup
      simp [hres] at hsup
    have hmem := mem_GetSupportedDeviceExtensions physical_device exts hsup
    have hfilter : ["VK_EXT_pipeline_creation_feedback", "VK_KHR_portability_subset"].filter
        (fun name => decide (name ∈ exts)) =
        ["VK_EXT_pipeline_creation_feedback", "VK_KHR_portability_subset"].filter
          (fun name =>
            decide (name ∈ physical_device.enumerateDeviceExtensionProperties.value)) := by
      apply List.filter_congr
      intro name _
      rw [Bool.eq_iff_iff, decide_eq_true_eq, decide_eq_true_eq]
      exact hmem name
    rw [GetEnabledDeviceExtensions_eq is_android physical_device exts hsup, hfilter]
    by_cases hall : ∀ name ∈ ["VK_KHR_swapchain"] ++
        (if is_android = true then
          ["VK_ANDROID_external_memory_android_hardware_buffer",
            "VK_KHR_sampler_ycbcr_conversion", "VK_KHR_external_memory",
            "VK_EXT_queue_family_foreign", "VK_KHR_dedicated_allocation"]
        else []), name ∈ exts
    · rw [if_pos hall]
      have hall2 : ∀ name ∈ ["VK_KHR_swapchain"] ++
          (if is_android = true then
            ["VK_ANDROID_external_memory_android_hardware_buffer",
              "VK_KHR_sampler_ycbcr_conversion", "VK_KHR_external_memory",
              "VK_EXT_queue_family_foreign", "VK_KHR_dedicated_allocation"]
          else []), name ∈ physical_device.enumerateDeviceExtensionProperties.value :=
        fun name hname => (hmem name).mp (hall name hname)
      refine ⟨⟨fun _ => ⟨hres, hall2⟩, fun _ => rfl⟩, ?_⟩
      intro enabled hsome
      simp only [Option.some.injEq] at hsome
      subst hsome
      refine ⟨rfl, ?_⟩
      intro name hname
      rcases List.mem_append.mp hname with h | h
      · exact hall2 name h
      · simpa using (List.mem_filter.mp h).2
    · rw [if_neg hall]
      refine ⟨⟨fun h => absurd h (by simp), ?_⟩, fun enabled hsome => absurd hsome (by simp)⟩
      rintro ⟨-, hall2⟩
      exact absurd (fun name hname => (hmem name).mpr (hall2 name hname)) hall

/-- The evaluation of C13 on the sample device: on a build that is not for
Android the swapchain and the pipeline creation feedback are enabled, in this
order, and on an Android build there is no result because the Android
extensions are not supported. -/
theorem GetEnabledDeviceExtensions_sample :
    CapabilitiesVK.GetEnabledDeviceExtensions false sampleDevice =
      some ["VK_KHR_swapchain", "VK_EXT_pipeline_creation_feedback"] ∧
    CapabilitiesVK.GetEnabledDeviceExtensions true sampleDevice = none := by
  have key := GetEnabledDeviceExtensions_iff_required_supported false sampleDevice
  refine ⟨?_, by decide⟩
  cases h : CapabilitiesVK.GetEnabledDeviceExtensions false sampleDevice with
  | none => exact absurd h (by decide)
  | some enabled =>
    rw [(key.2 enabled h).1]
    decide

/-- C19: when the device passes `PhysicalDeviceSupportsRequiredFormats`, the
check that `GetEnabledDeviceFeatures` makes first, then after
`SetPhysicalDevice`, whatever the object was before and whatever the call
returns, the default depth-stencil format is `kD32FloatS8UInt` when
`D32SfloatS8Uint` is usable as depth-stencil attachment and `kD24UnormS8Uint`
otherwise, and neither it nor the default stencil format is `kUnknown`. -/
theorem SetPhysicalDevice_formats_known (self : CapabilitiesVK) (device : vk.PhysicalDevice)
    (hformats : PhysicalDeviceSupportsRequiredFormats device = true) :
    (self.SetPhysicalDevice device).2.GetDefaultDepthStencilFormat =
      (if HasSuitableDepthStencilFormat device vk.Format.eD32SfloatS8Uint = true then
        PixelFormat.kD32FloatS8UInt
      else PixelFormat.kD24UnormS8Uint) ∧
    (self.SetPhysicalDevice device).2.GetDefaultDepthStencilFormat ≠ PixelFormat.kUnknown ∧
    (self.SetPhysicalDevice device).2.GetDefaultStencilFormat ≠ PixelFormat.kUnknown ∧
    (∀ is_android : Bool,
      (CapabilitiesVK.GetEnabledDeviceFeatures is_android device).isSome = true →
        PhysicalDeviceSupportsRequiredFormats device = true) := by
  have hds : HasSuitableDepthStencilFormat device vk.Format.eD32SfloatS8Uint = true ∨
      HasSuitableDepthStencilFormat device vk.Format.eD24UnormS8Uint = true := by
    unfold PhysicalDeviceSupportsRequiredFormats at hformats
    simp only [Bool.and_eq_true, Bool.or_eq_true] at hformats
    exact hformats.2
  have hfields : (self.SetPhysicalDevice device).2.default_depth_stencil_format_ =
        (if HasSuitableDepthStencilFormat device vk.Format.eD32SfloatS8Uint = true then
          PixelFormat.kD32FloatS8UInt
        else if HasSuitableDepthStencilFormat device vk.Format.eD24UnormS8Uint = true then
          PixelFormat.kD24UnormS8Uint
        else PixelFormat.kUnknown) ∧
      (self.SetPhysicalDevice device).2.default_stencil_format_ =
        (if HasSuitableDepthStencilFormat device vk.Format.eS8Uint = true then
          PixelFormat.kS8UInt
        else if HasSuitableDepthStencilFormat device vk.Format.eD32SfloatS8Uint = true then
          PixelFormat.kD32FloatS8UInt
        else if HasSuitableDepthStencilFormat device vk.Format.eD24UnormS8Uint = true then
          PixelFormat.kD24UnormS8Uint
        else self.default_stencil_format_) := by
    unfold CapabilitiesVK.SetPhysicalDevice
    cases GetSupportedDeviceExtensions device <;>
      cases HasSuitableDepthStencilFormat device vk.Format.eD32SfloatS8Uint <;>
      cases HasSuitableDepthStencilFormat device vk.Format.eD24UnormS8Uint <;>
      cases HasSuitableDepthStencilFormat device vk.Format.eS8Uint <;>
      simp
  unfold CapabilitiesVK.GetDefaultDepthStencilFormat CapabilitiesVK.GetDefaultStencilFormat
  rw [hfields.1, hfields.2]
  refine ⟨?_, ?_, ?_, ?_⟩
  · rcases hds with h | h
    · simp [h]
    · simp [h]
  · rcases hds with h | h
    · simp [h]
    · cases HasSuitableDepthStencilFormat device vk.Format.eD32SfloatS8Uint <;> simp [h]
  · rcases hds with h | h
    · cases HasSuitableDepthStencilFormat device vk.Format.eS8Uint <;> simp [h]
    · cases HasSuitableDepthStencilFormat device vk.Format.eS8Uint <;>
        cases HasSuitableDepthStencilFormat device vk.Format.eD32SfloatS8Uint <;> simp [h]
  · intro is_android _
    exact hformats

/-- Witness of C19 on the sample device, which supports `D24UnormS8Uint` but
neither `D32SfloatS8Uint` nor `S8Uint`: both default formats become
`kD24UnormS8Uint`. -/
theorem SetPhysicalDevice_formats_known_witness :
    PhysicalDeviceSupportsRequiredFormats sampleDevice = true ∧
    (CapabilitiesVK.initial.SetPhysicalDevice sampleDevice).2.GetDefaultDepthStencilFormat =
      PixelFormat.kD24UnormS8Uint ∧
    (CapabilitiesVK.initial.SetPhysicalDevice sampleDevice).2.GetDefaultStencilFormat ≠
      PixelFormat.kUnknown := by
  have key := SetPhysicalDevice_formats_known CapabilitiesVK.initial sampleDevice (by decide)
  refine ⟨by decide, ?_, key.2.2.1⟩
  rw [key.1]
  decide

end impeller

/-! ## Properties of `RuntimeStage` -/

namespace impeller

/-- The loop of the constructor appends one description for each uniform of
the descriptor, in order, and touches no other member. -/
theorem foldl_emplaceUniform (uniforms : List fb.UniformDescription) (self : RuntimeStage) :
    uniforms.foldl RuntimeStage.emplaceUniform self =
      { self with
        uniforms_ := self.uniforms_ ++ uniforms.map (fun i =>
          { name := i.name,
            location := i.location,
            type := ToType i.type,
            dimensions := { rows := i.rows, cols := i.columns },
            bit_width := i.bit_width,
            array_elements := some i.array_elements }) } := by
  induction uniforms generalizing self with
  | nil => simp
  | cons i rest ih =>
    rw [List.foldl_cons, ih]
    simp [RuntimeStage.emplaceUniform]

/-- C15: for every runtime-stage descriptor the constructed `RuntimeStage` is
valid, its shader stage is the image of the stage tag of the descriptor under
`ToShaderStage` and its entrypoint is the entrypoint of the descriptor;
`GetUniforms()` is the list of uniforms of the descriptor, in the same order
and of the same length, each with the name, location, type under `ToType`,
rows and columns, bit width and array length of its descriptor; a descriptor
without a uniform list gives the empty list; and `ToType` and `ToShaderStage`
are one-to-one. -/
theorem RuntimeStage_carries_descriptor (runtime_stage : fb.RuntimeStage)
    (payload : Option (List Nat)) :
    (RuntimeStage.construct runtime_stage payload).IsValid = true ∧
    (RuntimeStage.construct runtime_stage payload).GetShaderStage =
      ToShaderStage runtime_stage.stage ∧
    (RuntimeStage.construct runtime_stage payload).GetEntrypoint = runtime_stage.entrypoint ∧
    (RuntimeStage.construct runtime_stage payload).GetUniforms =
      (runtime_stage.uniforms.getD []).map (fun i =>
        { name := i.name,
          location := i.location,
          type := ToType i.type,
          dimensions := { rows := i.rows, cols := i.columns },
          bit_width := i.bit_width,
          array_elements := some i.array_elements }) ∧
    (RuntimeStage.construct runtime_stage payload).GetUniforms.length =
      (runtime_stage.uniforms.getD []).length ∧
    (∀ (k : Nat) (i : fb.UniformDescription), (runtime_stage.uniforms.getD [])[k]? = some i →
      ∃ desc, (RuntimeStage.construct runtime_stage payload).GetUniforms[k]? = some desc ∧
        desc.name = i.name ∧ desc.location = i.location ∧ desc.type = ToType i.type ∧
        desc.dimensions.rows = i.rows ∧ desc.dimensions.cols = i.columns ∧
        desc.bit_width = i.bit_width ∧ desc.array_elements = some i.array_elements) ∧
    (runtime_stage.uniforms = none →
      (RuntimeStage.construct runtime_stage payload).GetUniforms = []) ∧
    Function.Injective ToType ∧ Function.Injective ToShaderStage := by
  have huniforms : (RuntimeStage.construct runtime_stage payload).GetUniforms =
      (runtime_stage.uniforms.getD []).map (fun i =>
        { name := i.name,
          location := i.location,
          type := ToType i.type,
          dimensions := { rows := i.rows, cols := i.columns },
          bit_width := i.bit_width,
          array_elements := some i.array_elements }) := by
    unfold RuntimeStage.construct RuntimeStage.GetUniforms
    cases runtime_stage.uniforms with
    | none => simp [RuntimeStage.initial]
    | some uniforms => simp [foldl_emplaceUniform, RuntimeStage.initial]
  refine ⟨rfl, ?_, ?_, huniforms, ?_, ?_, ?_, ?_, ?_⟩
  · unfold RuntimeStage.construct RuntimeStage.GetShaderStage
    cases runtime_stage.uniforms with
    | none => rfl
    | some uniforms => simp [foldl_emplaceUniform]
  · unfold RuntimeStage.construct RuntimeStage.GetEntrypoint
    cases runtime_stage.uniforms with
    | none => rfl
    | some uniforms => simp [foldl_emplaceUniform]
  · rw [huniforms, List.length_map]
  · intro k i hk
    rw [huniforms, List.getElem?_map, hk]
    exact ⟨_, rfl, rfl, rfl, rfl, rfl, rfl, rfl, rfl⟩
  · intro hnone
    rw [huniforms, hnone]
    rfl
  · intro a b hab
    cases a <;> cases b <;> first | rfl | exact absurd hab (by simp [ToType])
  · intro a b hab
    cases a <;> cases b <;> first | rfl | exact absurd hab (by simp [ToShaderStage])

/-- The evaluation of C15 on the sample descriptor. -/
theorem RuntimeStage_carries_descriptor_sample :
    (RuntimeStage.construct sampleRuntimeStage none).GetUniforms =
      [{ name := "u_color", location := 0, type := RuntimeUniformType.kFloat,
         dimensions := { rows := 4, cols := 1 }, bit_width := 32, array_elements := some 0 },
       { name := "u_texture", location := 1, type := RuntimeUniformType.kSampledImage,
         dimensions := { rows := 1, cols := 1 }, bit_width := 0, array_elements := some 0 }] ∧
    (RuntimeStage.construct sampleRuntimeStage none).GetShaderStage =
      RuntimeShaderStage.kFragment ∧
    (RuntimeStage.construct sampleRuntimeStage none).GetEntrypoint = "main" := by
  have key := RuntimeStage_carries_descriptor sampleRuntimeStage none
  exact ⟨key.2.2.2.1, key.2.1, key.2.2.1⟩

end impeller

/-! ## Properties of `Picture::RasterizeToImage` -/

namespace flutter

/-- C16: `Picture::RasterizeToImage` returns the string
"Image callback was invalid" when the callback is null or not a closure,
whatever the dimensions; otherwise the string
"Image dimensions for scene were invalid." when the width or the height is
zero; otherwise Dart null, after handing exactly one task to the raster task
runner.  Whenever it returns one of the two strings no task was handed to the
raster task runner and the callback was not invoked. -/
theorem RasterizeToImage_validates_first {DrawCallback LayerTree Dart_Handle : Type}
    [DartApi Dart_Handle]
    (RunNowOrPostTask : RasterTask DrawCallback LayerTree Dart_Handle →
      List (DartInvocation Dart_Handle))
    (draw_callback : Option DrawCallback) (layer_tree : Option LayerTree)
    (width height : Nat) (raw_image_callback : Dart_Handle) :
    (Picture.RasterizeToImage RunNowOrPostTask draw_callback layer_tree width height
        raw_image_callback).result =
      (if DartApi.Dart_IsNull raw_image_callback = true ∨
          DartApi.Dart_IsClosure raw_image_callback = false then
        DartReturn.string "Image callback was invalid"
      else if width = 0 ∨ height = 0 then
        DartReturn.string "Image dimensions for scene were invalid."
      else DartReturn.null) ∧
    ((Picture.RasterizeToImage RunNowOrPostTask draw_callback layer_tree width height
        raw_image_callback).result ≠ DartReturn.null →
      (Picture.RasterizeToImage RunNowOrPostTask draw_callback layer_tree width height
          raw_image_callback).raster_tasks = [] ∧
        (Picture.RasterizeToImage RunNowOrPostTask draw_callback layer_tree width height
          raw_image_callback).callback_invocations = []) ∧
    ((Picture.RasterizeToImage RunNowOrPostTask draw_callback layer_tree width height
        raw_image_callback).result = DartReturn.null →
      (Picture.RasterizeToImage RunNowOrPostTask draw_callback layer_tree width height
          raw_image_callback).raster_tasks.length = 1) := by
  unfold Picture.RasterizeToImage
  cases hnull : DartApi.Dart_IsNull raw_image_callback <;>
    cases hclosure : DartApi.Dart_IsClosure raw_image_callback <;>
    by_cases hw : width = 0 <;> by_cases hh : height = 0 <;> simp [hw, hh]

/-- The evaluation of C16 on sample handles: a null handle and an object that
is not a closure are refused before the dimensions are looked at, a closure
with a zero width is refused for the dimensions, and in neither case a task
is handed over or the callback invoked. -/
theorem RasterizeToImage_validates_first_sample :
    (Picture.RasterizeToImage sampleRunNowOrPostTask (some ()) none 0 0 SampleHandle.null).result =
      DartReturn.string "Image callback was invalid" ∧
    (Picture.RasterizeToImage sampleRunNowOrPostTask (some ()) none 10 10 (SampleHandle.object 3)).result =
      DartReturn.string "Image callback was invalid" ∧
    (Picture.RasterizeToImage sampleRunNowOrPostTask (some ()) none 0 10 (SampleHandle.closure 1)).result =
      DartReturn.string "Image dimensions for scene were invalid." ∧
    (Picture.RasterizeToImage sampleRunNowOrPostTask (some ()) none 0 10 (SampleHandle.closure 1)).raster_tasks = [] ∧
    (Picture.RasterizeToImage sampleRunNowOrPostTask (some ()) none 10 10 (SampleHandle.closure 1)).result = DartReturn.null := by
  refine ⟨?_, ?_, ?_, ?_, ?_⟩
  · rw [(RasterizeToImage_validates_first _ _ _ _ _ _).1]
    rfl
  · rw [(RasterizeToImage_validates_first _ _ _ _ _ _).1]
    rfl
  · rw [(RasterizeToImage_validates_first _ _ _ _ _ _).1]
    rfl
  · exact ((RasterizeToImage_validates_first _ _ _ _ _ _).2.1 (by decide)).1
  · rw [(RasterizeToImage_validates_first _ _ _ _ _ _).1]
    rfl

end flutter
